import Mathlib

/-!
# Verification of the `arazzo-models` mapping layer

A shallow embedding of the `arazzo-models` Rust crate (loading Arazzo
workflow descriptions from parsed YAML/JSON trees into typed models and
serializing them back to generic document trees), together with proofs
about the loader, the dynamic-value decoder, the extension extractor and
the serializer.

Modelling conventions:

* `f64` values are never computed with by this crate: they are carried
  from the source tree into the model unchanged.  They are therefore
  modelled opaquely by the structure `F64`, wrapping the source text of
  the number.  Success or failure of Rust's `str::parse::<f64>` is
  modelled by a syntactic validity check of Rust's documented float
  grammar (`rustFloatSyntaxOk`).
* Rust `HashMap<String, _>` values are compared by key set (order is
  irrelevant to `PartialEq`) and are only ever iterated after an explicit
  sort-by-key.  They are modelled as key-sorted association lists
  (`ExtMap`, `StrMap`), built by order-preserving sorted insertion, so
  that structural equality of the model coincides with Rust `HashMap`
  equality.
* `anyhow::Error` values are fixed message strings in the source; they
  are modelled by the inductive `LoadErr` whose constructors are in
  one-to-one correspondence with the `anyhow!` call sites (the exact
  message of each site is recorded on its constructor).
* Byte strings (`bytes::Bytes` holding UTF-8 data) are modelled as
  `String`; UTF-8 encoding is injective, so equality of the modelled
  strings coincides with equality of the rendered bytes.
-/

/-- Opaque model of an IEEE-754 `f64` value as carried by this crate: the
crate never performs float arithmetic, so a float is identified by the
source text it was parsed from. -/
structure F64 where
  text : String
deriving Repr, DecidableEq

/-- Whether `s` is accepted by Rust's `str::parse::<f64>` grammar:
`Sign? (inf | infinity | nan | Number)` with `Number` one of
`Digits (. Digits?)? Exp?` or `. Digits Exp?`, and
`Exp = (e|E) Sign? Digits`; the special words are case-insensitive. -/
def rustFloatSyntaxOk (s : String) : Bool :=
  let cs := s.toList
  let afterSign := match cs with
    | '+' :: rest => rest
    | '-' :: rest => rest
    | rest => rest
  let lower := afterSign.map Char.toLower
  if lower = ['i', 'n', 'f'] ∨ lower = ['i', 'n', 'f', 'i', 'n', 'i', 't', 'y'] ∨
      lower = ['n', 'a', 'n'] then
    true
  else
    let isDigit (c : Char) : Bool := '0' ≤ c ∧ c ≤ '9'
    let digits1 := afterSign.takeWhile isDigit
    let rest1 := afterSign.dropWhile isDigit
    let expOk (l : List Char) : Bool :=
      match l with
      | [] => true
      | e :: tl =>
        if e = 'e' ∨ e = 'E' then
          let tl2 := match tl with
            | '+' :: r => r
            | '-' :: r => r
            | r => r
          decide (tl2 ≠ []) && tl2.all isDigit
        else false
    match digits1, rest1 with
    | [], '.' :: tl =>
      let frac := tl.takeWhile isDigit
      decide (frac ≠ []) && expOk (tl.dropWhile isDigit)
    | [], _ => false
    | _ :: _, '.' :: tl => expOk (tl.dropWhile isDigit)
    | _ :: _, rest => expOk rest

/-- Model of `str::parse::<f64>`: the parsed value is the (opaque) `F64`
carrying the source text; parsing fails exactly when the text is outside
Rust's float grammar. -/
def rustParseF64 (s : String) : Option F64 :=
  if rustFloatSyntaxOk s then some ⟨s⟩ else none

/-- Lexicographic comparison of character lists, the kernel-reducible
model of Rust's `Ord for String` (UTF-8 byte order coincides with code
point order). -/
def charListLt : List Char → List Char → Bool
  | [], [] => false
  | [], _ :: _ => true
  | _ :: _, [] => false
  | a :: as_, b :: bs =>
    if a < b then true else if b < a then false else charListLt as_ bs

/-- Rust's `String` ordering (used by every sort-by-key in the
serializer and by the sorted-list model of `HashMap`). -/
def strLt (a b : String) : Bool := charListLt a.toList b.toList

/-- Rust's `str::starts_with` (a byte-prefix check; on whole characters
it coincides with the character-prefix check). -/
def strStartsWith (s p : String) : Bool := p.toList.isPrefixOf s.toList

/-- Model of `yaml_rust2::Yaml`: the parsed YAML tree handed to the
loader.  A `hash` is a `LinkedHashMap<Yaml, Yaml>` (insertion-ordered),
modelled as the association list of its entries; `real` carries the
scalar's source text, as in `yaml_rust2`. -/
inductive YVal where
  /-- `Yaml::Real` (source text of the float scalar) -/
  | real (s : String)
  /-- `Yaml::Integer` (an `i64`) -/
  | integer (i : Int)
  /-- `Yaml::String` -/
  | string (s : String)
  /-- `Yaml::Boolean` -/
  | boolean (b : Bool)
  /-- `Yaml::Array` -/
  | array (xs : List YVal)
  /-- `Yaml::Hash` -/
  | hash (entries : List (YVal × YVal))
  /-- `Yaml::Alias` -/
  | aliasNode (id : Nat)
  /-- `Yaml::Null` -/
  | null
  /-- `Yaml::BadValue` -/
  | badValue
deriving Repr

/-- Model of `serde_json::Number` (default build): one of an unsigned
64-bit integer (`PosInt`), a negative signed 64-bit integer (`NegInt`),
or a finite double (`Float`).  The constructors keep serde's invariants
implicitly: `pos` values come from `u64`, `neg` values are negative. -/
inductive JNum where
  /-- `N::PosInt(u64)` -/
  | pos (n : Nat)
  /-- `N::NegInt(i64)`, always negative -/
  | neg (i : Int)
  /-- `N::Float(f64)` -/
  | float (f : F64)
deriving Repr, DecidableEq

/-- Model of `serde_json::Value`.  Objects are modelled as the ordered
association list of their entries. -/
inductive JVal where
  /-- `Value::Null` -/
  | null
  /-- `Value::Bool` -/
  | bool (b : Bool)
  /-- `Value::Number` -/
  | num (n : JNum)
  /-- `Value::String` -/
  | str (s : String)
  /-- `Value::Array` -/
  | arr (xs : List JVal)
  /-- `Value::Object` -/
  | obj (o : List (String × JVal))
deriving Repr

/-- Model of `extensions.rs`'s `AnyValue`: the dynamic value enum.
`object` is a `HashMap<String, AnyValue>`, modelled as a key-sorted
association list (see the module header). -/
inductive AnyValue where
  /-- `AnyValue::Null` -/
  | null
  /-- `AnyValue::Boolean` -/
  | boolean (b : Bool)
  /-- `AnyValue::Integer` (i64) -/
  | integer (i : Int)
  /-- `AnyValue::UInteger` (u64) -/
  | uinteger (u : Nat)
  /-- `AnyValue::Float` (f64) -/
  | float (f : F64)
  /-- `AnyValue::String` -/
  | string (s : String)
  /-- `AnyValue::Array` -/
  | array (xs : List AnyValue)
  /-- `AnyValue::Object` -/
  | object (o : List (String × AnyValue))
deriving Repr

/-- Model of the two-shape value: both `itertools::Either` (used by the
loader, variants `Left`/`Right`) and the crate's own `either::Either`
(used by the serializer, variants `First`/`Second`); the two Rust types
are identical tagged pairs of a literal branch and an expression
branch. -/
inductive EitherV (α β : Type) where
  /-- `Either::Left` / `Either::First` -/
  | left (a : α)
  /-- `Either::Right` / `Either::Second` -/
  | right (b : β)
deriving Repr, DecidableEq

/-- Model of the `anyhow!` error messages produced by the loader; each
constructor corresponds to one `anyhow!` call site (its exact message is
reproduced by `LoadErr.message`). -/
inductive LoadErr where
  /-- "Arazzo version number is required [4.6.1.1 Fixed Fields]" -/
  | arazzoRequired
  /-- "Info Object is required [4.6.1.1 Fixed Fields]" -/
  | infoRequired
  /-- "Source Description Object is required [4.6.1.1 Fixed Fields]" -/
  | sourceDescriptionsRequired
  /-- "Source Description list must have at least one entry [4.6.1.1 Fixed Fields]" -/
  | sourceDescriptionsEmpty
  /-- "Workflow Object is required [4.6.1.1 Fixed Fields]" -/
  | workflowsRequired
  /-- "Workflows list must have at least one entry [4.6.1.1 Fixed Fields]" -/
  | workflowsEmpty
  /-- "At lest one Step is required [4.6.4.1 Fixed Fields]" — used both
  when `steps` is absent and when it is empty -/
  | stepsRequired
  /-- "Parameter value is required [4.6.6.1 Fixed Fields]" -/
  | parameterValueRequired
  /-- "Reference is required [4.6.10.1 Fixed Fields]" -/
  | referenceRequired
  /-- "YAML value must be a Hash, got {}" -/
  | yamlNotAHash (typeName : String)
  /-- "JSON value must be an Object, got {:?}" -/
  | jsonNotAnObject
  /-- "Value for key '{}' in hash was not a string, was {}" -/
  | valueNotAString (key : String) (typeName : String)
  /-- "Did not find key '{}' in hash" -/
  | keyNotFound (key : String)
  /-- "Only String values can be used for extension keys. Got '{}'" -/
  | extensionKeyNotString (typeName : String)
  /-- "Values of '{}' can not be used as an extension value" -/
  | unsupportedExtensionValue (typeName : String)
  /-- "Only String values can be used for JSON keys. Got '{}'" -/
  | jsonKeyNotString (typeName : String)
  /-- "YAML '{}' value can not be converted to JSON" -/
  | yamlToJsonUnsupported (typeName : String)
  /-- a `ParseFloatError` forwarded through `anyhow!(err)` -/
  | floatParseFailure (text : String)
deriving Repr, DecidableEq

mutual

/-- Structural equality on `YVal`, modelling `PartialEq for Yaml`. -/
def YVal.beq : YVal → YVal → Bool
  | .real a, .real b => a == b
  | .integer a, .integer b => a == b
  | .string a, .string b => a == b
  | .boolean a, .boolean b => a == b
  | .array a, .array b => YVal.beqList a b
  | .hash a, .hash b => YVal.beqEntries a b
  | .aliasNode a, .aliasNode b => a == b
  | .null, .null => true
  | .badValue, .badValue => true
  | _, _ => false
  termination_by structural a _b => a

/-- Elementwise `YVal.beq` on lists. -/
def YVal.beqList : List YVal → List YVal → Bool
  | [], [] => true
  | x :: xs, y :: ys => YVal.beq x y && YVal.beqList xs ys
  | _, _ => false
  termination_by structural a _b => a

/-- Entrywise `YVal.beq` on hash entry lists. -/
def YVal.beqEntries : List (YVal × YVal) → List (YVal × YVal) → Bool
  | [], [] => true
  | (k1, v1) :: xs, (k2, v2) :: ys =>
      YVal.beq k1 k2 && YVal.beq v1 v2 && YVal.beqEntries xs ys
  | _, _ => false
  termination_by structural a _b => a

end

instance : BEq YVal := ⟨YVal.beq⟩

mutual

/-- Structural equality on `AnyValue`, modelling the derived
`PartialEq for AnyValue` (`HashMap` equality is key-set based, which on
the sorted-list model is structural equality). -/
def AnyValue.beq : AnyValue → AnyValue → Bool
  | .null, .null => true
  | .boolean a, .boolean b => a == b
  | .integer a, .integer b => a == b
  | .uinteger a, .uinteger b => a == b
  | .float a, .float b => a == b
  | .string a, .string b => a == b
  | .array a, .array b => AnyValue.beqList a b
  | .object a, .object b => AnyValue.beqObj a b
  | _, _ => false
  termination_by structural a _b => a

/-- Elementwise `AnyValue.beq` on lists. -/
def AnyValue.beqList : List AnyValue → List AnyValue → Bool
  | [], [] => true
  | x :: xs, y :: ys => AnyValue.beq x y && AnyValue.beqList xs ys
  | _, _ => false
  termination_by structural a _b => a

/-- Entrywise `AnyValue.beq` on object entry lists. -/
def AnyValue.beqObj : List (String × AnyValue) → List (String × AnyValue) → Bool
  | [], [] => true
  | (k1, v1) :: xs, (k2, v2) :: ys =>
      k1 == k2 && AnyValue.beq v1 v2 && AnyValue.beqObj xs ys
  | _, _ => false
  termination_by structural a _b => a

end

instance : BEq AnyValue := ⟨AnyValue.beq⟩

mutual

theorem AnyValue.beq_iff : ∀ a b : AnyValue, AnyValue.beq a b = true ↔ a = b
  | .null, .null => by simp [AnyValue.beq]
  | .boolean _, .boolean _ => by simp [AnyValue.beq]
  | .integer _, .integer _ => by simp [AnyValue.beq]
  | .uinteger _, .uinteger _ => by simp [AnyValue.beq]
  | .float _, .float _ => by simp [AnyValue.beq]
  | .string _, .string _ => by simp [AnyValue.beq]
  | .array x, .array y => by simp [AnyValue.beq, AnyValue.beqList_iff x y]
  | .object x, .object y => by simp [AnyValue.beq, AnyValue.beqObj_iff x y]
  | .null, .boolean _ | .null, .integer _ | .null, .uinteger _ | .null, .float _
  | .null, .string _ | .null, .array _ | .null, .object _
  | .boolean _, .null | .boolean _, .integer _ | .boolean _, .uinteger _ | .boolean _, .float _
  | .boolean _, .string _ | .boolean _, .array _ | .boolean _, .object _
  | .integer _, .null | .integer _, .boolean _ | .integer _, .uinteger _ | .integer _, .float _
  | .integer _, .string _ | .integer _, .array _ | .integer _, .object _
  | .uinteger _, .null | .uinteger _, .boolean _ | .uinteger _, .integer _ | .uinteger _, .float _
  | .uinteger _, .string _ | .uinteger _, .array _ | .uinteger _, .object _
  | .float _, .null | .float _, .boolean _ | .float _, .integer _ | .float _, .uinteger _
  | .float _, .string _ | .float _, .array _ | .float _, .object _
  | .string _, .null | .string _, .boolean _ | .string _, .integer _ | .string _, .uinteger _
  | .string _, .float _ | .string _, .array _ | .string _, .object _
  | .array _, .null | .array _, .boolean _ | .array _, .integer _ | .array _, .uinteger _
  | .array _, .float _ | .array _, .string _ | .array _, .object _
  | .object _, .null | .object _, .boolean _ | .object _, .integer _ | .object _, .uinteger _
  | .object _, .float _ | .object _, .string _ | .object _, .array _ => by simp [AnyValue.beq]

theorem AnyValue.beqList_iff : ∀ a b : List AnyValue, AnyValue.beqList a b = true ↔ a = b
  | [], [] => by simp [AnyValue.beqList]
  | x :: xs, y :: ys => by
      simp [AnyValue.beqList, AnyValue.beq_iff x y, AnyValue.beqList_iff xs ys]
  | [], _ :: _ | _ :: _, [] => by simp [AnyValue.beqList]

theorem AnyValue.beqObj_iff :
    ∀ a b : List (String × AnyValue), AnyValue.beqObj a b = true ↔ a = b
  | [], [] => by simp [AnyValue.beqObj]
  | (k1, v1) :: xs, (k2, v2) :: ys => by
      simp [AnyValue.beqObj, AnyValue.beq_iff v1 v2, AnyValue.beqObj_iff xs ys, and_assoc]
  | [], _ :: _ | _ :: _, [] => by simp [AnyValue.beqObj]

end

instance : LawfulBEq AnyValue :=
  ⟨fun h => (AnyValue.beq_iff _ _).mp h, fun {a} => (AnyValue.beq_iff a a).mpr rfl⟩

instance : DecidableEq AnyValue :=
  fun a b => decidable_of_iff (AnyValue.beq a b = true) (AnyValue.beq_iff a b)

/-- A YAML hash (`LinkedHashMap<Yaml, Yaml>`): the insertion-ordered list
of its entries. -/
abbrev YHash := List (YVal × YVal)

/-- `hash.get(&key)`: find the value stored under `key`. -/
def YHash.get (h : YHash) (key : YVal) : Option YVal :=
  (h.find? (fun p => YVal.beq p.1 key)).map (·.2)

/-- `hash.contains_key(&key)`. -/
def YHash.containsKey (h : YHash) (key : YVal) : Bool :=
  h.any (fun p => YVal.beq p.1 key)

/-- Sorted insert-or-replace into a key-sorted association list: the
canonical model of `HashMap::insert` (see the module header). -/
def insertSorted {α : Type} (k : String) (v : α) :
    List (String × α) → List (String × α)
  | [] => [(k, v)]
  | (k', v') :: rest =>
    if strLt k k' then (k, v) :: (k', v') :: rest
    else if k == k' then (k, v) :: rest
    else (k', v') :: insertSorted k v rest

/-- Canonical model of `HashMap<String, AnyValue>` (extension mappings):
a key-sorted association list. -/
abbrev ExtMap := List (String × AnyValue)

/-- Canonical model of `HashMap<String, String>` (outputs mappings). -/
abbrev StrMap := List (String × String)

/-- `yaml.rs`: `yaml_type_name` — the type name of a YAML value. -/
def yaml_type_name : YVal → String
  | .real _ => "Real"
  | .integer _ => "Integer"
  | .string _ => "String"
  | .boolean _ => "Boolean"
  | .array _ => "Array"
  | .hash _ => "Hash"
  | .aliasNode _ => "Alias"
  | .null => "Null"
  | .badValue => "BadValue"

/-- `yaml.rs`: `yaml_hash_lookup_string` — looks up a String value,
coercing Numbers and Booleans via `to_string()`. -/
def yaml_hash_lookup_string (h : YHash) (key : String) : Option String :=
  match h.get (.string key) with
  | some value =>
    match value with
    | .real s => some s
    | .integer i => some (toString i)
    | .string s => some s
    | .boolean b => some (toString b)
    | _ => none
  | none => none

/-- `yaml.rs`: `yaml_hash_lookup_number` — looks up an `f64`, converting
an integer with `as f64` (modelled as the integer's text, see `F64`). -/
def yaml_hash_lookup_number (h : YHash) (key : String) : Option F64 :=
  match h.get (.string key) with
  | some value =>
    match value with
    | .real f => rustParseF64 f
    | .integer i => some ⟨toString i⟩
    | _ => none
  | none => none

/-- Approximate value of `f as i64` for an `F64` literal: the integer
part of its decimal text.  Only reachable through
`yaml_hash_lookup_integer` on a `Real` scalar, which no theorem below
depends on. -/
def F64.truncToInt (f : F64) : Int :=
  let core := (f.text.toList.takeWhile (fun c => c ≠ '.' ∧ c ≠ 'e' ∧ c ≠ 'E'))
  match core with
  | '-' :: ds => -(String.toNat! ⟨ds⟩)
  | '+' :: ds => (String.toNat! ⟨ds⟩ : Nat)
  | ds => (String.toNat! ⟨ds⟩ : Nat)

/-- `yaml.rs`: `yaml_hash_lookup_integer` — looks up an `i64`, converting
a float with `as i64`. -/
def yaml_hash_lookup_integer (h : YHash) (key : String) : Option Int :=
  match h.get (.string key) with
  | some value =>
    match value with
    | .real f => (rustParseF64 f).map F64.truncToInt
    | .integer i => some i
    | _ => none
  | none => none

/-- `yaml.rs`: `yaml_hash_require_string` — looks up a required String
value; a missing key or a non-String value is an error. -/
def yaml_hash_require_string (h : YHash) (key : String) : Except LoadErr String :=
  match h.get (.string key) with
  | some value =>
    match value with
    | .string s => .ok s
    | v => .error (.valueNotAString key (yaml_type_name v))
  | none => .error (.keyNotFound key)

/-- `yaml.rs`: `yaml_hash_lookup` — looks up a String key, applying the
callback to the value when found. -/
def yaml_hash_lookup {U : Type} (h : YHash) (key : String)
    (callback : YVal → Option U) : Option U :=
  match h.get (.string key) with
  | some value => callback value
  | none => none

/-- `yaml.rs`: `yaml_hash_lookup_string_list` — looks up an Array of
String values, coercing Numbers and Booleans via `to_string()` and
ignoring all other values. -/
def yaml_hash_lookup_string_list (h : YHash) (key : String) : Option (List String) :=
  match h.get (.string key) with
  | some value =>
    match value with
    | .array xs =>
      some (xs.filterMap (fun v =>
        match v with
        | .real s => some s
        | .integer i => some (toString i)
        | .string s => some s
        | .boolean b => some (toString b)
        | _ => none))
    | _ => none
  | none => none

/-- `From<i64> for serde_json::Number`: non-negative values become
`PosInt`, negative values `NegInt`. -/
def JNum.ofI64 (i : Int) : JNum :=
  if i < 0 then .neg i else .pos i.toNat

mutual

/-- `yaml.rs`: `yaml_to_json` — converts a YAML value to the equivalent
JSON value. -/
def yaml_to_json : YVal → Except LoadErr JVal
  | .null => .ok .null
  | .boolean b => .ok (.bool b)
  | .integer i => .ok (.num (JNum.ofI64 i))
  | .real f =>
    match rustParseF64 f with
    | some v => .ok (.num (.float v))
    | none => .error (.floatParseFailure f)
  | .string s => .ok (.str s)
  | .array a => (yaml_to_json_list a).map .arr
  | .hash h => (yaml_to_json_entries [] h).map .obj
  | .aliasNode id => .error (.yamlToJsonUnsupported (yaml_type_name (.aliasNode id)))
  | .badValue => .error (.yamlToJsonUnsupported (yaml_type_name .badValue))
  termination_by structural v => v

/-- The `Yaml::Array` branch of `yaml_to_json`. -/
def yaml_to_json_list : List YVal → Except LoadErr (List JVal)
  | [] => .ok []
  | v :: rest =>
    match yaml_to_json v with
    | .ok j =>
      match yaml_to_json_list rest with
      | .ok js => .ok (j :: js)
      | .error e => .error e
    | .error e => .error e
  termination_by structural l => l

/-- The `Yaml::Hash` branch of `yaml_to_json`: inserts each entry into a
`serde_json::Map` (a `BTreeMap`, modelled by sorted insertion), requiring
String keys. -/
def yaml_to_json_entries (acc : List (String × JVal)) :
    List (YVal × YVal) → Except LoadErr (List (String × JVal))
  | [] => .ok acc
  | (k, v) :: rest =>
    match k with
    | .string key =>
      match yaml_to_json v with
      | .ok j => yaml_to_json_entries (insertSorted key j acc) rest
      | .error e => .error e
    | _ => .error (.jsonKeyNotString (yaml_type_name k))
  termination_by structural l => l

end

/-- `yaml.rs`: `yaml_hash_entry_to_json` — converts the entry under `key`
to JSON, or JSON Null when the key is absent. -/
def yaml_hash_entry_to_json (h : YHash) (key : String) : Except LoadErr JVal :=
  match h.get (.string key) with
  | some value => yaml_to_json value
  | none => .ok .null

mutual

/-- `extensions.rs`: `TryFrom<&Yaml> for AnyValue` — decodes a YAML value
into a dynamic value. -/
def AnyValue.tryFromYaml : YVal → Except LoadErr AnyValue
  | .real f =>
    match rustParseF64 f with
    | some v => .ok (.float v)
    | none => .error (.floatParseFailure f)
  | .integer i => .ok (.integer i)
  | .string s => .ok (.string s)
  | .boolean b => .ok (.boolean b)
  | .array a => (AnyValue.tryFromYamlList a).map .array
  | .hash h => (AnyValue.tryFromYamlEntries [] h).map .object
  | .null => .ok .null
  | .aliasNode id =>
    .error (.unsupportedExtensionValue (yaml_type_name (.aliasNode id)))
  | .badValue => .error (.unsupportedExtensionValue (yaml_type_name .badValue))
  termination_by structural v => v

/-- The `Yaml::Array` branch of `AnyValue.tryFromYaml`. -/
def AnyValue.tryFromYamlList : List YVal → Except LoadErr (List AnyValue)
  | [] => .ok []
  | v :: rest =>
    match AnyValue.tryFromYaml v with
    | .ok a =>
      match AnyValue.tryFromYamlList rest with
      | .ok as_ => .ok (a :: as_)
      | .error e => .error e
    | .error e => .error e
  termination_by structural l => l

/-- The `Yaml::Hash` branch of `AnyValue.tryFromYaml`: inserts each entry
into a `HashMap` (modelled by sorted insertion), requiring String keys. -/
def AnyValue.tryFromYamlEntries (acc : ExtMap) :
    List (YVal × YVal) → Except LoadErr ExtMap
  | [] => .ok acc
  | (k, v) :: rest =>
    match k with
    | .string key =>
      match AnyValue.tryFromYaml v with
      | .ok a => AnyValue.tryFromYamlEntries (insertSorted key a acc) rest
      | .error e => .error e
    | _ => .error (.extensionKeyNotString (yaml_type_name k))
  termination_by structural l => l

end

/-- `extensions.rs`: `yaml_extract_extensions` — collects every entry of
the hash whose key is a String starting with `x-`, stripping that prefix
off and decoding the value as a dynamic value. -/
def yaml_extract_extensions (h : YHash) : Except LoadErr ExtMap :=
  go [] h
where
  /-- The extraction loop, carrying the extensions accumulated so far. -/
  go (acc : ExtMap) : List (YVal × YVal) → Except LoadErr ExtMap
  | [] => .ok acc
  | (k, v) :: rest =>
    match k with
    | .string key =>
      if strStartsWith key "x-" then
        match AnyValue.tryFromYaml v with
        | .ok a => go (insertSorted (key.drop 2) a acc) rest
        | .error e => .error e
      else go acc rest
    | _ => go acc rest

/-- `serde_json::Number::as_u64`: only a `PosInt` is a `u64`. -/
def JNum.asU64 : JNum → Option Nat
  | .pos n => some n
  | .neg _ => none
  | .float _ => none

/-- The largest `i64`, as a `Nat`. -/
def i64MaxNat : Nat := 2 ^ 63 - 1

/-- `serde_json::Number::as_i64`: a `PosInt` within `i64::MAX`, or any
`NegInt`. -/
def JNum.asI64 : JNum → Option Int
  | .pos n => if n ≤ i64MaxNat then some (n : Int) else none
  | .neg i => some i
  | .float _ => none

/-- `serde_json::Number::as_f64` (total on every variant; integer cases
are `as f64` casts, modelled as the integer's text). -/
def JNum.asF64 : JNum → Option F64
  | .pos n => some ⟨toString n⟩
  | .neg i => some ⟨toString i⟩
  | .float f => some f

mutual

/-- `extensions.rs`: `TryFrom<&Value> for AnyValue` — decodes a JSON
value into a dynamic value.  Numbers follow the `as_u64` / `as_i64` /
`as_f64.unwrap_or_default()` chain of the source. -/
def AnyValue.tryFromJson : JVal → Except LoadErr AnyValue
  | .null => .ok .null
  | .bool b => .ok (.boolean b)
  | .num n =>
    match n.asU64 with
    | some u => .ok (.uinteger u)
    | none =>
      match n.asI64 with
      | some i => .ok (.integer i)
      | none => .ok (.float ((n.asF64).getD ⟨"0"⟩))
  | .str s => .ok (.string s)
  | .arr a => (AnyValue.tryFromJsonList a).map .array
  | .obj o => (AnyValue.tryFromJsonEntries [] o).map .object
  termination_by structural v => v

/-- The `Value::Array` branch of `AnyValue.tryFromJson`. -/
def AnyValue.tryFromJsonList : List JVal → Except LoadErr (List AnyValue)
  | [] => .ok []
  | v :: rest =>
    match AnyValue.tryFromJson v with
    | .ok a =>
      match AnyValue.tryFromJsonList rest with
      | .ok as_ => .ok (a :: as_)
      | .error e => .error e
    | .error e => .error e
  termination_by structural l => l

/-- The `Value::Object` branch of `AnyValue.tryFromJson`: inserts each
entry into a `HashMap` (modelled by sorted insertion). -/
def AnyValue.tryFromJsonEntries (acc : ExtMap) :
    List (String × JVal) → Except LoadErr ExtMap
  | [] => .ok acc
  | (k, v) :: rest =>
    match AnyValue.tryFromJson v with
    | .ok a => AnyValue.tryFromJsonEntries (insertSorted k a acc) rest
    | .error e => .error e
  termination_by structural l => l

end

/-- `extensions.rs`: `json_extract_extensions` — collects every entry of
the object whose key starts with `x-`, stripping that prefix off and
decoding the value as a dynamic value. -/
def json_extract_extensions (o : List (String × JVal)) : Except LoadErr ExtMap :=
  go [] o
where
  /-- The extraction loop, carrying the extensions accumulated so far. -/
  go (acc : ExtMap) : List (String × JVal) → Except LoadErr ExtMap
  | [] => .ok acc
  | (k, v) :: rest =>
    if strStartsWith k "x-" then
      match AnyValue.tryFromJson v with
      | .ok a => go (insertSorted (k.drop 2) a acc) rest
      | .error e => .error e
    else go acc rest

/-- `serde_json` string escaping: the escaped body of a JSON string
(quotes, backslashes and control characters escaped as serde does). -/
def jsonEscape (s : String) : String :=
  ⟨s.toList.flatMap escChar⟩
where
  /-- Escape a single character. -/
  escChar (c : Char) : List Char :=
    if c = '"' then ['\\', '"']
    else if c = '\\' then ['\\', '\\']
    else if c = '\x08' then ['\\', 'b']
    else if c = '\x09' then ['\\', 't']
    else if c = '\x0a' then ['\\', 'n']
    else if c = '\x0c' then ['\\', 'f']
    else if c = '\x0d' then ['\\', 'r']
    else if c.toNat < 0x20 then
      ['\\', 'u', '0', '0', Nat.digitChar (c.toNat / 16), Nat.digitChar (c.toNat % 16)]
    else [c]

/-- Compact rendering of a `JNum` (`serde_json::to_string`); a float is
rendered as its opaque carrier text (see `F64`). -/
def JNum.render : JNum → String
  | .pos n => toString n
  | .neg i => toString i
  | .float f => f.text

mutual

/-- Compact rendering of a `serde_json::Value`
(`serde_json::to_string`). -/
def JVal.render : JVal → String
  | .null => "null"
  | .bool b => toString b
  | .num n => n.render
  | .str s => "\"" ++ jsonEscape s ++ "\""
  | .arr xs => "[" ++ JVal.renderList xs ++ "]"
  | .obj o => "\x7b" ++ JVal.renderObj o ++ "\x7d"
  termination_by structural v => v

/-- Comma-separated rendering of array elements. -/
def JVal.renderList : List JVal → String
  | [] => ""
  | [x] => x.render
  | x :: xs => x.render ++ "," ++ JVal.renderList xs
  termination_by structural l => l

/-- Comma-separated rendering of object entries. -/
def JVal.renderObj : List (String × JVal) → String
  | [] => ""
  | [(k, v)] => "\"" ++ jsonEscape k ++ "\":" ++ v.render
  | (k, v) :: xs => "\"" ++ jsonEscape k ++ "\":" ++ v.render ++ "," ++ JVal.renderObj xs
  termination_by structural l => l

end

/-- Model of the `Rc<dyn Payload + Send + Sync>` values this crate
constructs: exactly the three `Payload` implementations of
`payloads.rs`. -/
inductive PayloadV where
  /-- `StringPayload(String)` -/
  | stringPayload (s : String)
  /-- `EmptyPayload` -/
  | emptyPayload
  /-- `JsonPayload(Value)` -/
  | jsonPayload (v : JVal)
deriving Repr

/-- `payloads.rs`: `Payload::as_bytes` for each implementation, as the
UTF-8 string whose encoding is the returned `Bytes` (UTF-8 encoding is
injective, so string equality models byte equality).  `JsonPayload`
renders its document compactly (`self.0.to_string()`). -/
def PayloadV.asBytes : PayloadV → String
  | .stringPayload s => s
  | .emptyPayload => ""
  | .jsonPayload v => v.render

/-- `payloads.rs`: `Payload::as_string` for each implementation. -/
def PayloadV.asString : PayloadV → String
  | .stringPayload s => s
  | .emptyPayload => ""
  | .jsonPayload v => v.render

/-- `payloads.rs`: `Payload::as_json` for each implementation (default
`None`, overridden only by `JsonPayload`). -/
def PayloadV.asJson : PayloadV → Option JVal
  | .jsonPayload v => some v
  | _ => none

/-- `v1_0.rs` 4.6.2: the `Info` object. -/
structure Info where
  title : String
  summary : Option String
  description : Option String
  version : String
  extensions : ExtMap
deriving Repr, DecidableEq

/-- `v1_0.rs` 4.6.3: the `SourceDescription` object (`rType` models the
raw-identifier field `r#type`). -/
structure SourceDescription where
  name : String
  url : String
  rType : Option String
  extensions : ExtMap
deriving Repr, DecidableEq

/-- `v1_0.rs` 4.6.10: the `ReusableObject`. -/
structure ReusableObject where
  reference : String
  value : Option String
deriving Repr, DecidableEq

/-- `v1_0.rs` 4.6.6: the `ParameterObject` (`rIn` models the
raw-identifier field `r#in`). -/
structure ParameterObject where
  name : String
  rIn : Option String
  value : EitherV AnyValue String
  extensions : ExtMap
deriving Repr, DecidableEq

/-- `v1_0.rs` 4.6.7: the `SuccessObject`. -/
structure SuccessObject where
  name : String
  rType : String
  workflow_id : Option String
  step_id : Option String
  extensions : ExtMap
deriving Repr, DecidableEq

/-- `v1_0.rs` 4.6.8: the `FailureObject`. -/
structure FailureObject where
  name : String
  rType : String
  workflow_id : Option String
  step_id : Option String
  retry_after : Option F64
  retry_limit : Option Int
  extensions : ExtMap
deriving Repr, DecidableEq

/-- `v1_0.rs` 4.6.9: the `Components` object. -/
structure Components where
  extensions : ExtMap
deriving Repr, DecidableEq

/-- `v1_0.rs` 4.6.13: the `RequestBody` object. -/
structure RequestBody where
  content_type : Option String
  payload : Option PayloadV
  extensions : ExtMap
deriving Repr

/-- `v1_0.rs` 4.6.5: the `Step` object. -/
structure Step where
  step_id : String
  operation_id : Option String
  operation_path : Option String
  workflow_id : Option String
  description : Option String
  parameters : List (EitherV ParameterObject ReusableObject)
  request_body : Option RequestBody
  on_success : List (EitherV SuccessObject ReusableObject)
  on_failure : List (EitherV FailureObject ReusableObject)
  outputs : StrMap
  extensions : ExtMap
deriving Repr

/-- `v1_0.rs` 4.6.4: the `Workflow` object. -/
structure Workflow where
  workflow_id : String
  summary : Option String
  description : Option String
  inputs : JVal
  depends_on : List String
  steps : List Step
  success_actions : List (EitherV SuccessObject ReusableObject)
  failure_actions : List (EitherV FailureObject ReusableObject)
  outputs : StrMap
  parameters : List (EitherV ParameterObject ReusableObject)
  extensions : ExtMap
deriving Repr

/-- `v1_0.rs` 4.6.1: the root `ArazzoDescription`. -/
structure ArazzoDescription where
  arazzo : String
  info : Info
  source_descriptions : List SourceDescription
  workflows : List Workflow
  components : Components
  extensions : ExtMap
deriving Repr

/-- The `|v| v.as_hash().cloned()` callback used with
`yaml_hash_lookup`. -/
def YVal.asHash : YVal → Option YHash
  | .hash h => some h
  | _ => none

/-- The `|v| v.as_vec().cloned()` callback used with
`yaml_hash_lookup`. -/
def YVal.asVec : YVal → Option (List YVal)
  | .array xs => some xs
  | _ => none

/-- `Yaml::as_str`. -/
def YVal.asStr : YVal → Option String
  | .string s => some s
  | _ => none

/-- `v1_0.rs`: `TryFrom<&Hash> for Info`. -/
def Info.tryFromYamlHash (value : YHash) : Except LoadErr Info :=
  match yaml_hash_lookup value "info" YVal.asHash with
  | some h => do
    let title ← yaml_hash_require_string h "title"
    let summary := yaml_hash_lookup_string h "summary"
    let description := yaml_hash_lookup_string h "description"
    let version ← yaml_hash_require_string h "version"
    let extensions ← yaml_extract_extensions h
    .ok { title, summary, description, version, extensions }
  | none => .error .infoRequired

/-- `v1_0.rs`: `TryFrom<&Yaml> for SourceDescription`. -/
def SourceDescription.tryFromYaml (value : YVal) : Except LoadErr SourceDescription :=
  match value with
  | .hash h => do
    let name ← yaml_hash_require_string h "name"
    let url ← yaml_hash_require_string h "url"
    let rType := yaml_hash_lookup_string h "type"
    let extensions ← yaml_extract_extensions h
    .ok { name, url, rType, extensions }
  | v => .error (.yamlNotAHash (yaml_type_name v))

/-- The element loop of `yaml_load_source_descriptions`. -/
def yaml_load_source_description_items :
    List YVal → Except LoadErr (List SourceDescription)
  | [] => .ok []
  | item :: rest =>
    match SourceDescription.tryFromYaml item with
    | .ok sd =>
      match yaml_load_source_description_items rest with
      | .ok sds => .ok (sd :: sds)
      | .error e => .error e
    | .error e => .error e

/-- `v1_0.rs`: `yaml_load_source_descriptions` — the `sourceDescriptions`
entry must be present and a non-empty array. -/
def yaml_load_source_descriptions (h : YHash) :
    Except LoadErr (List SourceDescription) :=
  match yaml_hash_lookup h "sourceDescriptions" YVal.asVec with
  | some array =>
    if array.isEmpty then .error .sourceDescriptionsEmpty
    else yaml_load_source_description_items array
  | none => .error .sourceDescriptionsRequired

/-- `v1_0.rs`: `TryFrom<&Hash> for ReusableObject`. -/
def ReusableObject.tryFromYamlHash (value : YHash) : Except LoadErr ReusableObject :=
  match yaml_hash_require_string value "reference" with
  | .ok reference => .ok { reference, value := yaml_hash_lookup_string value "value" }
  | .error _ => .error .referenceRequired

/-- `v1_0.rs`: `yaml_load_parameter_value` — the two-shape
disambiguation: a String scalar beginning with `$` is the expression
branch, any other String the literal String branch, and every other value
the literal branch via `AnyValue` conversion (conversion failure maps to
the required-value error through `ok()`/`ok_or_else`). -/
def yaml_load_parameter_value (h : YHash) (key : String) :
    Except LoadErr (EitherV AnyValue String) :=
  match yaml_hash_lookup h key (fun v =>
    match v.asStr with
    | some s =>
      if strStartsWith s "$" then some (.right s)
      else some (.left (.string s))
    | none => (AnyValue.tryFromYaml v).toOption.map .left) with
  | some r => .ok r
  | none => .error .parameterValueRequired

/-- `v1_0.rs`: `TryFrom<&Hash> for ParameterObject`. -/
def ParameterObject.tryFromYamlHash (value : YHash) : Except LoadErr ParameterObject := do
  let name ← yaml_hash_require_string value "name"
  let rIn := yaml_hash_lookup_string value "in"
  let v ← yaml_load_parameter_value value "value"
  let extensions ← yaml_extract_extensions value
  .ok { name, rIn, value := v, extensions }

/-- The element loop of `yaml_load_parameters`: a hash entry holding a
`reference` key decodes as a `ReusableObject`, any other hash entry as a
`ParameterObject`, and a non-hash entry is skipped. -/
def yaml_load_parameter_items :
    List YVal → Except LoadErr (List (EitherV ParameterObject ReusableObject))
  | [] => .ok []
  | item :: rest =>
    match item.asHash with
    | some h =>
      if h.containsKey (.string "reference") then
        match ReusableObject.tryFromYamlHash h with
        | .ok r =>
          match yaml_load_parameter_items rest with
          | .ok l => .ok (.right r :: l)
          | .error e => .error e
        | .error e => .error e
      else
        match ParameterObject.tryFromYamlHash h with
        | .ok p =>
          match yaml_load_parameter_items rest with
          | .ok l => .ok (.left p :: l)
          | .error e => .error e
        | .error e => .error e
    | none => yaml_load_parameter_items rest

/-- `v1_0.rs`: `yaml_load_parameters` — an absent `parameters` entry
defaults to the empty list. -/
def yaml_load_parameters (h : YHash) :
    Except LoadErr (List (EitherV ParameterObject ReusableObject)) :=
  match yaml_hash_lookup h "parameters" YVal.asVec with
  | some array => yaml_load_parameter_items array
  | none => .ok []

/-- `v1_0.rs`: `TryFrom<&Hash> for SuccessObject`. -/
def SuccessObject.tryFromYamlHash (value : YHash) : Except LoadErr SuccessObject := do
  let name ← yaml_hash_require_string value "name"
  let rType ← yaml_hash_require_string value "type"
  let workflow_id := yaml_hash_lookup_string value "workflowId"
  let step_id := yaml_hash_lookup_string value "stepId"
  let extensions ← yaml_extract_extensions value
  .ok { name, rType, workflow_id, step_id, extensions }

/-- The element loop of `yaml_load_success_actions` (same discrimination
as `yaml_load_parameter_items`). -/
def yaml_load_success_action_items :
    List YVal → Except LoadErr (List (EitherV SuccessObject ReusableObject))
  | [] => .ok []
  | item :: rest =>
    match item.asHash with
    | some h =>
      if h.containsKey (.string "reference") then
        match ReusableObject.tryFromYamlHash h with
        | .ok r =>
          match yaml_load_success_action_items rest with
          | .ok l => .ok (.right r :: l)
          | .error e => .error e
        | .error e => .error e
      else
        match SuccessObject.tryFromYamlHash h with
        | .ok p =>
          match yaml_load_success_action_items rest with
          | .ok l => .ok (.left p :: l)
          | .error e => .error e
        | .error e => .error e
    | none => yaml_load_success_action_items rest

/-- `v1_0.rs`: `yaml_load_success_actions` — an absent `successActions`
entry defaults to the empty list. -/
def yaml_load_success_actions (h : YHash) :
    Except LoadErr (List (EitherV SuccessObject ReusableObject)) :=
  match yaml_hash_lookup h "successActions" YVal.asVec with
  | some array => yaml_load_success_action_items array
  | none => .ok []

/-- `v1_0.rs`: `TryFrom<&Hash> for FailureObject`. -/
def FailureObject.tryFromYamlHash (value : YHash) : Except LoadErr FailureObject := do
  let name ← yaml_hash_require_string value "name"
  let rType ← yaml_hash_require_string value "type"
  let workflow_id := yaml_hash_lookup_string value "workflowId"
  let step_id := yaml_hash_lookup_string value "stepId"
  let retry_after := yaml_hash_lookup_number value "retryAfter"
  let retry_limit := yaml_hash_lookup_integer value "retryLimit"
  let extensions ← yaml_extract_extensions value
  .ok { name, rType, workflow_id, step_id, retry_after, retry_limit, extensions }

/-- The element loop of `yaml_load_failure_actions` (same discrimination
as `yaml_load_parameter_items`). -/
def yaml_load_failure_action_items :
    List YVal → Except LoadErr (List (EitherV FailureObject ReusableObject))
  | [] => .ok []
  | item :: rest =>
    match item.asHash with
    | some h =>
      if h.containsKey (.string "reference") then
        match ReusableObject.tryFromYamlHash h with
        | .ok r =>
          match yaml_load_failure_action_items rest with
          | .ok l => .ok (.right r :: l)
          | .error e => .error e
        | .error e => .error e
      else
        match FailureObject.tryFromYamlHash h with
        | .ok p =>
          match yaml_load_failure_action_items rest with
          | .ok l => .ok (.left p :: l)
          | .error e => .error e
        | .error e => .error e
    | none => yaml_load_failure_action_items rest

/-- `v1_0.rs`: `yaml_load_failure_actions` — an absent `failureActions`
entry defaults to the empty list. -/
def yaml_load_failure_actions (h : YHash) :
    Except LoadErr (List (EitherV FailureObject ReusableObject)) :=
  match yaml_hash_lookup h "failureActions" YVal.asVec with
  | some array => yaml_load_failure_action_items array
  | none => .ok []

/-- `v1_0.rs`: `yaml_load_outputs` — collects the String-keyed,
String-valued entries of the `outputs` hash, silently dropping entries
with non-String values; an absent or non-hash entry defaults to the
empty map. -/
def yaml_load_outputs (h : YHash) : StrMap :=
  (yaml_hash_lookup h "outputs" (fun v =>
    match v.asHash with
    | some entries =>
      some (entries.foldl (fun acc p =>
        match p.1.asStr with
        | some key =>
          match p.2.asStr with
          | some value => insertSorted key value acc
          | none => acc
        | none => acc) [])
    | none => none)).getD []

/-- `v1_0.rs`: `TryFrom<&Hash> for Components`. -/
def Components.tryFromYamlHash (value : YHash) : Except LoadErr Components :=
  match yaml_hash_lookup value "components" YVal.asHash with
  | some h => (yaml_extract_extensions h).map (fun extensions => { extensions })
  | none => .ok { extensions := [] }

/-- `v1_0.rs`: `yaml_load_payload` — a String payload is kept verbatim, a
Null payload is the empty payload, and any other value is captured as a
JSON document via `yaml_to_json`. -/
def yaml_load_payload (h : YHash) (key : String) (_content_type : Option String) :
    Except LoadErr (Option PayloadV) :=
  match yaml_hash_lookup h key (fun value =>
    match value with
    | .string s => some (.ok (PayloadV.stringPayload s))
    | .null => some (.ok .emptyPayload)
    | v => some ((yaml_to_json v).map .jsonPayload)) with
  | some r => r.map some
  | none => .ok none

/-- `v1_0.rs`: `TryFrom<&Yaml> for RequestBody`. -/
def RequestBody.tryFromYaml (value : YVal) : Except LoadErr RequestBody :=
  match value with
  | .hash h => do
    let content_type := yaml_hash_lookup_string h "contentType"
    let payload ← yaml_load_payload h "payload" content_type
    let extensions ← yaml_extract_extensions h
    .ok { content_type, payload, extensions }
  | v => .error (.yamlNotAHash (yaml_type_name v))

/-- `v1_0.rs`: `impl PartialEq for RequestBody` — equality of
content-type and extensions, and equality of the payloads' byte
renderings (both-absent payloads are equal; a present and an absent
payload are not). -/
def RequestBody.beq (a b : RequestBody) : Bool :=
  if a.content_type == b.content_type && a.extensions == b.extensions then
    if a.payload.isNone && b.payload.isNone then true
    else
      match a.payload, b.payload with
      | some p, some q => p.asBytes == q.asBytes
      | _, _ => false
  else false

/-- `v1_0.rs`: `TryFrom<&Yaml> for Step`. -/
def Step.tryFromYaml (value : YVal) : Except LoadErr Step :=
  match value with
  | .hash h => do
    let step_id ← yaml_hash_require_string h "stepId"
    let operation_id := yaml_hash_lookup_string h "operationId"
    let operation_path := yaml_hash_lookup_string h "operationPath"
    let workflow_id := yaml_hash_lookup_string h "workflowId"
    let description := yaml_hash_lookup_string h "description"
    let parameters ← yaml_load_parameters h
    let request_body ←
      match yaml_hash_lookup h "requestBody" (fun v => some (RequestBody.tryFromYaml v)) with
      | some r => r.map some
      | none => .ok none
    let on_success ← yaml_load_success_actions h
    let on_failure ← yaml_load_failure_actions h
    let outputs := yaml_load_outputs h
    let extensions ← yaml_extract_extensions h
    .ok { step_id, operation_id, operation_path, workflow_id, description,
          parameters, request_body, on_success, on_failure, outputs, extensions }
  | v => .error (.yamlNotAHash (yaml_type_name v))

/-- The element loop of `yaml_load_steps`. -/
def yaml_load_step_items : List YVal → Except LoadErr (List Step)
  | [] => .ok []
  | item :: rest =>
    match Step.tryFromYaml item with
    | .ok s =>
      match yaml_load_step_items rest with
      | .ok ss => .ok (s :: ss)
      | .error e => .error e
    | .error e => .error e

/-- `v1_0.rs`: `yaml_load_steps` — the `steps` entry must be present and
a non-empty array; both failure cases produce the same error. -/
def yaml_load_steps (h : YHash) : Except LoadErr (List Step) :=
  match yaml_hash_lookup h "steps" YVal.asVec with
  | some array =>
    if array.isEmpty then .error .stepsRequired
    else yaml_load_step_items array
  | none => .error .stepsRequired

/-- `v1_0.rs`: `TryFrom<&Yaml> for Workflow`. -/
def Workflow.tryFromYaml (value : YVal) : Except LoadErr Workflow :=
  match value with
  | .hash h => do
    let workflow_id ← yaml_hash_require_string h "workflowId"
    let summary := yaml_hash_lookup_string h "summary"
    let description := yaml_hash_lookup_string h "description"
    let inputs ← yaml_hash_entry_to_json h "inputs"
    let depends_on := (yaml_hash_lookup_string_list h "dependsOn").getD []
    let steps ← yaml_load_steps h
    let success_actions ← yaml_load_success_actions h
    let failure_actions ← yaml_load_failure_actions h
    let outputs := yaml_load_outputs h
    let parameters ← yaml_load_parameters h
    let extensions ← yaml_extract_extensions h
    .ok { workflow_id, summary, description, inputs, depends_on, steps,
          success_actions, failure_actions, outputs, parameters, extensions }
  | v => .error (.yamlNotAHash (yaml_type_name v))

/-- The element loop of `yaml_load_workflows`. -/
def yaml_load_workflow_items : List YVal → Except LoadErr (List Workflow)
  | [] => .ok []
  | item :: rest =>
    match Workflow.tryFromYaml item with
    | .ok w =>
      match yaml_load_workflow_items rest with
      | .ok ws => .ok (w :: ws)
      | .error e => .error e
    | .error e => .error e

/-- `v1_0.rs`: `yaml_load_workflows` — the `workflows` entry must be
present and a non-empty array. -/
def yaml_load_workflows (h : YHash) : Except LoadErr (List Workflow) :=
  match yaml_hash_lookup h "workflows" YVal.asVec with
  | some array =>
    if array.isEmpty then .error .workflowsEmpty
    else yaml_load_workflow_items array
  | none => .error .workflowsRequired

/-- `v1_0.rs`: `TryFrom<&Yaml> for ArazzoDescription` — the root loader:
any failure of the `arazzo` lookup maps to the version-required error,
and the sub-loaders run in source order. -/
def ArazzoDescription.tryFromYaml (value : YVal) : Except LoadErr ArazzoDescription :=
  match value with
  | .hash h =>
    match yaml_hash_require_string h "arazzo" with
    | .ok version => do
      let info ← Info.tryFromYamlHash h
      let source_descriptions ← yaml_load_source_descriptions h
      let workflows ← yaml_load_workflows h
      let components ← Components.tryFromYamlHash h
      let extensions ← yaml_extract_extensions h
      .ok { arazzo := version, info, source_descriptions, workflows,
            components, extensions }
    | .error _ => .error .arazzoRequired
  | v => .error (.yamlNotAHash (yaml_type_name v))

/-- `Value::as_object`. -/
def JVal.asObject : JVal → Option (List (String × JVal))
  | .obj o => some o
  | _ => none

/-- `Value::as_str`. -/
def JVal.asStr : JVal → Option String
  | .str s => some s
  | _ => none

/-- `serde_json::Map::get`. -/
def jsonMapGet (m : List (String × JVal)) (key : String) : Option JVal :=
  (m.find? (fun p => p.1 == key)).map (·.2)

/-- `json.rs`: `json_type_name` — the type name of a JSON value. -/
def json_type_name : JVal → String
  | .null => "Null"
  | .bool _ => "Boolean"
  | .num _ => "Number"
  | .str _ => "String"
  | .arr _ => "Array"
  | .obj _ => "Object"

/-- `json.rs`: `json_object_lookup_string` — looks up a String value,
coercing Numbers and Booleans via `to_string()` (a Number renders as
`JNum.render`). -/
def json_object_lookup_string (m : List (String × JVal)) (key : String) : Option String :=
  match jsonMapGet m key with
  | some value =>
    match value with
    | .bool b => some (toString b)
    | .num n => some n.render
    | .str s => some s
    | _ => none
  | none => none

/-- `json.rs`: `json_object_lookup_number` — looks up an `f64` through
the `as_u64` / `as_i64` / `as_f64` chain (integer casts modelled as the
integer's text, see `F64`). -/
def json_object_lookup_number (m : List (String × JVal)) (key : String) : Option F64 :=
  match jsonMapGet m key with
  | some value =>
    match value with
    | .num n =>
      match n.asU64 with
      | some u => some ⟨toString u⟩
      | none =>
        match n.asI64 with
        | some i => some ⟨toString i⟩
        | none => n.asF64
    | _ => none
  | none => none

/-- `json.rs`: `json_object_lookup_integer` — looks up an `i64` through
the `as_u64` / `as_i64` / `as_f64` chain (`u64 as i64` wraps modulo
`2^64`; `f64 as i64` is modelled by `F64.truncToInt`). -/
def json_object_lookup_integer (m : List (String × JVal)) (key : String) : Option Int :=
  match jsonMapGet m key with
  | some value =>
    match value with
    | .num n =>
      match n.asU64 with
      | some u =>
        some (if u ≤ i64MaxNat then (u : Int) else (u : Int) - 2 ^ 64)
      | none =>
        match n.asI64 with
        | some i => some i
        | none => (n.asF64).map F64.truncToInt
    | _ => none
  | none => none

/-- `json.rs`: `json_object_require_string` — looks up a required String
value; a missing key or a non-String value is an error. -/
def json_object_require_string (m : List (String × JVal)) (key : String) :
    Except LoadErr String :=
  match jsonMapGet m key with
  | some value =>
    match value with
    | .str s => .ok s
    | v => .error (.valueNotAString key (json_type_name v))
  | none => .error (.keyNotFound key)

/-- `json.rs`: `json_load_parameter_value` — the JSON-side two-shape
disambiguation; unlike the YAML side the `AnyValue` conversion error (if
any) is propagated directly. -/
def json_load_parameter_value (m : List (String × JVal)) (key : String) :
    Except LoadErr (EitherV AnyValue String) :=
  match jsonMapGet m key with
  | some value =>
    match value.asStr with
    | some s =>
      if strStartsWith s "$" then .ok (.right s)
      else .ok (.left (.string s))
    | none => (AnyValue.tryFromJson value).map .left
  | none => .error .parameterValueRequired

/-- `json.rs`: `TryFrom<&Value> for ParameterObject`. -/
def ParameterObject.tryFromJson (value : JVal) : Except LoadErr ParameterObject :=
  match value.asObject with
  | some m => do
    let name ← json_object_require_string m "name"
    let rIn := json_object_lookup_string m "in"
    let v ← json_load_parameter_value m "value"
    let extensions ← json_extract_extensions m
    .ok { name, rIn, value := v, extensions }
  | none => .error .jsonNotAnObject

/-- `json.rs`: `TryFrom<&Value> for SuccessObject`. -/
def SuccessObject.tryFromJson (value : JVal) : Except LoadErr SuccessObject :=
  match value.asObject with
  | some m => do
    let name ← json_object_require_string m "name"
    let rType ← json_object_require_string m "type"
    let workflow_id := json_object_lookup_string m "workflowId"
    let step_id := json_object_lookup_string m "stepId"
    let extensions ← json_extract_extensions m
    .ok { name, rType, workflow_id, step_id, extensions }
  | none => .error .jsonNotAnObject

/-- `json.rs`: `TryFrom<&Value> for FailureObject`. -/
def FailureObject.tryFromJson (value : JVal) : Except LoadErr FailureObject :=
  match value.asObject with
  | some m => do
    let name ← json_object_require_string m "name"
    let rType ← json_object_require_string m "type"
    let workflow_id := json_object_lookup_string m "workflowId"
    let step_id := json_object_lookup_string m "stepId"
    let retry_after := json_object_lookup_number m "retryAfter"
    let retry_limit := json_object_lookup_integer m "retryLimit"
    let extensions ← json_extract_extensions m
    .ok { name, rType, workflow_id, step_id, retry_after, retry_limit, extensions }
  | none => .error .jsonNotAnObject

/-- `json.rs`: `TryFrom<&Value> for ReusableObject`. -/
def ReusableObject.tryFromJson (value : JVal) : Except LoadErr ReusableObject :=
  match value.asObject with
  | some m =>
    match json_object_require_string m "reference" with
    | .ok reference => .ok { reference, value := json_object_lookup_string m "value" }
    | .error _ => .error .referenceRequired
  | none => .error .jsonNotAnObject

/-- The `CriterionExpressionType` record.  Its struct definition is not
in `src/v1_0.rs` (only its loader in `json.rs` and its serializer use
it); modelled from the spec: a full Criterion-Expression-Type record
with a type name, a version, and extensions. -/
structure CriterionExpressionType where
  rType : String
  version : String
  extensions : ExtMap
deriving Repr, DecidableEq

/-- The `Criterion` record.  Its struct definition is not in
`src/v1_0.rs` (only its loader in `json.rs` and its serializer use it);
modelled from the spec: optional context, a condition string, an
optional type held as either a short name string or a full
Criterion-Expression-Type record, and extensions. -/
structure Criterion where
  context : Option String
  condition : String
  rType : Option (EitherV String CriterionExpressionType)
  extensions : ExtMap
deriving Repr, DecidableEq

/-- `json.rs`: `TryFrom<&Value> for CriterionExpressionType`. -/
def CriterionExpressionType.tryFromJson (value : JVal) :
    Except LoadErr CriterionExpressionType :=
  match value.asObject with
  | some m => do
    let rType ← json_object_require_string m "type"
    let version ← json_object_require_string m "version"
    let extensions ← json_extract_extensions m
    .ok { rType, version, extensions }
  | none => .error .jsonNotAnObject

/-- `json.rs`: `json_load_criterion_expression_type` — a String `type`
entry is the short-name branch, any other value is decoded as a full
record. -/
def json_load_criterion_expression_type (m : List (String × JVal)) :
    Except LoadErr (Option (EitherV String CriterionExpressionType)) :=
  match jsonMapGet m "type" with
  | some value =>
    match value.asStr with
    | some s => .ok (some (.left s))
    | none => (CriterionExpressionType.tryFromJson value).map (some ∘ .right)
  | none => .ok none

/-- `json.rs`: `TryFrom<&Value> for Criterion`. -/
def Criterion.tryFromJson (value : JVal) : Except LoadErr Criterion :=
  match value.asObject with
  | some m => do
    let context := json_object_lookup_string m "context"
    let condition ← json_object_require_string m "condition"
    let rType ← json_load_criterion_expression_type m
    let extensions ← json_extract_extensions m
    .ok { context, condition, rType, extensions }
  | none => .error .jsonNotAnObject

/-- `json.rs`: `json_load_payload` — a Null payload is the empty
payload, a String payload is kept verbatim, and any other value is
captured as a JSON document. -/
def json_load_payload (m : List (String × JVal)) (key : String)
    (_content_type : Option String) : Except LoadErr (Option PayloadV) :=
  match jsonMapGet m key with
  | some value =>
    match value with
    | .null => .ok (some .emptyPayload)
    | .str s => .ok (some (.stringPayload s))
    | v => .ok (some (.jsonPayload v))
  | none => .ok none

/-- `json.rs`: `TryFrom<&Value> for RequestBody`. -/
def RequestBody.tryFromJson (value : JVal) : Except LoadErr RequestBody :=
  match value.asObject with
  | some m => do
    let content_type := json_object_lookup_string m "contentType"
    let payload ← json_load_payload m "payload" content_type
    let extensions ← json_extract_extensions m
    .ok { content_type, payload, extensions }
  | none => .error .jsonNotAnObject

/-- The generic ordered document tree the serializer produces: one node
per serde `serialize_*` call made by this crate (`unit` for
`serialize_unit`, and distinct integer kinds as the spec requires the
writer to preserve value kind). -/
inductive SNode where
  /-- `serialize_unit` (rendered as null) -/
  | unit
  /-- `serialize_bool` -/
  | bool (b : Bool)
  /-- `serialize_i64` -/
  | i64 (i : Int)
  /-- `serialize_u64` -/
  | u64 (u : Nat)
  /-- `serialize_f64` -/
  | f64 (f : F64)
  /-- `serialize_str` -/
  | str (s : String)
  /-- `serialize_seq` with its elements -/
  | seq (xs : List SNode)
  /-- `serialize_map` with its entries in emission order (the length
  hints computed by the source only size the map and are not part of the
  tree) -/
  | map (entries : List (String × SNode))
deriving Repr

/-- The keys of a serialized map node, in emission order. -/
def SNode.mapKeys : SNode → List String
  | .map es => es.map (·.1)
  | _ => []

/-- Stable insertion into a key-sorted list, the auxiliary step of
`sortByKey`. -/
def insertByKey {α : Type} (p : String × α) :
    List (String × α) → List (String × α)
  | [] => [p]
  | q :: rest => if strLt q.1 p.1 then q :: insertByKey p rest else p :: q :: rest

/-- `entries.sort_by(|(a, _), (b, _)| Ord::cmp(a, b))`: stable ascending
sort of map entries by key. -/
def sortByKey {α : Type} : List (String × α) → List (String × α)
  | [] => []
  | p :: rest => insertByKey p (sortByKey rest)

mutual

/-- `serialize.rs`: `impl Serialize for AnyValue` — scalars map to the
matching `serialize_*` call; an object's entries are sorted by key
before emission (the source sorts the entry pairs and then serializes
each value; `sortByKey` only inspects keys, so sorting commutes with
serializing the values and the model sorts the serialized entries, which
keeps the recursion structural). -/
def serialize_any : AnyValue → SNode
  | .null => .unit
  | .boolean b => .bool b
  | .integer i => .i64 i
  | .uinteger u => .u64 u
  | .float f => .f64 f
  | .string s => .str s
  | .array a => .seq (serialize_any_list a)
  | .object o => .map (sortByKey (serialize_any_entries o))
  termination_by structural v => v

/-- Elementwise `serialize_any` over a sequence. -/
def serialize_any_list : List AnyValue → List SNode
  | [] => []
  | v :: rest => serialize_any v :: serialize_any_list rest
  termination_by structural l => l

/-- Entrywise `serialize_any` over (already sorted) object entries. -/
def serialize_any_entries : List (String × AnyValue) → List (String × SNode)
  | [] => []
  | (k, v) :: rest => (k, serialize_any v) :: serialize_any_entries rest
  termination_by structural l => l

end

/-- `serialize.rs`: `impl Serialize for Either` — serialize whichever
branch is populated (`serialise.rs`'s `PayloadReplacement` match on
`Either::Left`/`Either::Right` is the same dispatch). -/
def serialize_either {α β : Type} (fa : α → SNode) (fb : β → SNode) :
    EitherV α β → SNode
  | .left a => fa a
  | .right b => fb b

mutual

/-- `impl Serialize for serde_json::Value`: the JSON tree as a document
tree (a `PosInt` number becomes `serialize_u64`, a `NegInt`
`serialize_i64`, a `Float` `serialize_f64`). -/
def jvalToSNode : JVal → SNode
  | .null => .unit
  | .bool b => .bool b
  | .num (.pos n) => .u64 n
  | .num (.neg i) => .i64 i
  | .num (.float f) => .f64 f
  | .str s => .str s
  | .arr xs => .seq (jvalToSNodeList xs)
  | .obj o => .map (jvalToSNodeEntries o)
  termination_by structural v => v

/-- Elementwise `jvalToSNode` over an array. -/
def jvalToSNodeList : List JVal → List SNode
  | [] => []
  | v :: rest => jvalToSNode v :: jvalToSNodeList rest
  termination_by structural l => l

/-- Entrywise `jvalToSNode` over object entries. -/
def jvalToSNodeEntries : List (String × JVal) → List (String × SNode)
  | [] => []
  | (k, v) :: rest => (k, jvalToSNode v) :: jvalToSNodeEntries rest
  termination_by structural l => l

end

/-- `payloads.rs`: `impl Serialize for dyn Payload + Send + Sync` — a
`StringPayload` serializes as its string, a `JsonPayload` as its
document, and anything else (here: `EmptyPayload`) as `serialize_unit`
via the downcast fallback. -/
def serialize_payload : PayloadV → SNode
  | .stringPayload s => .str s
  | .jsonPayload v => jvalToSNode v
  | .emptyPayload => .unit

/-- Serializer for `ReusableObject`.  Its `Serialize` impl is not under
`src/` (only callers are); modelled from the spec: fixed fields
(`reference`, then `value` when present) in hardcoded order, omitted
when absent. -/
def serialize_reusable_object (r : ReusableObject) : SNode :=
  .map ([("reference", SNode.str r.reference)] ++
    (match r.value with
     | some v => [("value", SNode.str v)]
     | none => []))

/-- Serializer for `SuccessObject`.  Its `Serialize` impl is not under
`src/` (only callers are); modelled from the spec: fixed fields in
hardcoded order with absent optionals omitted, then extension entries
sorted ascending by name. -/
def serialize_success_object (s : SuccessObject) : SNode :=
  .map ([("name", SNode.str s.name), ("type", SNode.str s.rType)] ++
    (match s.workflow_id with
     | some v => [("workflowId", SNode.str v)]
     | none => []) ++
    (match s.step_id with
     | some v => [("stepId", SNode.str v)]
     | none => []) ++
    (sortByKey s.extensions).map (fun p => (p.1, serialize_any p.2)))

/-- Serializer for `FailureObject`.  Its `Serialize` impl is not under
`src/` (only callers are); modelled from the spec: fixed fields in
hardcoded order with absent optionals omitted, then extension entries
sorted ascending by name. -/
def serialize_failure_object (f : FailureObject) : SNode :=
  .map ([("name", SNode.str f.name), ("type", SNode.str f.rType)] ++
    (match f.workflow_id with
     | some v => [("workflowId", SNode.str v)]
     | none => []) ++
    (match f.step_id with
     | some v => [("stepId", SNode.str v)]
     | none => []) ++
    (match f.retry_after with
     | some v => [("retryAfter", SNode.f64 v)]
     | none => []) ++
    (match f.retry_limit with
     | some v => [("retryLimit", SNode.i64 v)]
     | none => []) ++
    (sortByKey f.extensions).map (fun p => (p.1, serialize_any p.2)))

/-- `serialize.rs`: `impl Serialize for ParameterObject` — `in` (when
present), `name`, `value` (whichever branch), then the extension entries
sorted ascending by their stored key. -/
def serialize_parameter_object (p : ParameterObject) : SNode :=
  .map ((match p.rIn with
     | some v => [("in", SNode.str v)]
     | none => []) ++
    [("name", SNode.str p.name)] ++
    [("value", serialize_either serialize_any SNode.str p.value)] ++
    (sortByKey p.extensions).map (fun q => (q.1, serialize_any q.2)))

/-- Serializer for `CriterionExpressionType`.  Its `Serialize` impl is
not under `src/` (only callers are); modelled from the spec: fixed
fields `type` and `version`, then sorted extension entries. -/
def serialize_criterion_expression_type (c : CriterionExpressionType) : SNode :=
  .map ([("type", SNode.str c.rType), ("version", SNode.str c.version)] ++
    (sortByKey c.extensions).map (fun p => (p.1, serialize_any p.2)))

/-- `serialize.rs`: `impl Serialize for Criterion` — `condition`,
`context` (when present), `type` (when present, whichever branch), then
the extension entries sorted ascending by their stored key. -/
def serialize_criterion (c : Criterion) : SNode :=
  .map ([("condition", SNode.str c.condition)] ++
    (match c.context with
     | some v => [("context", SNode.str v)]
     | none => []) ++
    (match c.rType with
     | some t =>
       [("type", serialize_either SNode.str serialize_criterion_expression_type t)]
     | none => []) ++
    (sortByKey c.extensions).map (fun p => (p.1, serialize_any p.2)))

/-- The `PayloadReplacement` record of the final-state model.  Its
struct definition is not in `src/v1_0.rs` (only its serializer and tests
are present); modelled from the spec: a target pointer/path string, a
two-shape value, and extensions. -/
structure PayloadReplacement where
  target : String
  value : EitherV AnyValue String
  extensions : ExtMap
deriving Repr

/-- `serialize.rs`: `impl Serialize for PayloadReplacement` — `target`,
`value` (whichever branch), then sorted extension entries. -/
def serialize_payload_replacement (p : PayloadReplacement) : SNode :=
  .map ([("target", SNode.str p.target)] ++
    [("value", serialize_either serialize_any SNode.str p.value)] ++
    (sortByKey p.extensions).map (fun q => (q.1, serialize_any q.2)))

/-- The final-state `RequestBody` targeted by `serialize.rs` (the struct
in `src/v1_0.rs` predates it and lacks `replacements`; the serializer
and its tests construct this shape). -/
structure SerRequestBody where
  content_type : Option String
  payload : Option PayloadV
  replacements : List PayloadReplacement
  extensions : ExtMap
deriving Repr

/-- `serialize.rs`: `impl Serialize for RequestBody` — `contentType`
(when present), `payload` (when present), `replacements` (when
non-empty), then sorted extension entries. -/
def serialize_request_body (b : SerRequestBody) : SNode :=
  .map ((match b.content_type with
     | some v => [("contentType", SNode.str v)]
     | none => []) ++
    (match b.payload with
     | some p => [("payload", serialize_payload p)]
     | none => []) ++
    (if b.replacements.isEmpty then []
     else [("replacements", SNode.seq (b.replacements.map serialize_payload_replacement))]) ++
    (sortByKey b.extensions).map (fun q => (q.1, serialize_any q.2)))

/-- The final-state `Step` targeted by `serialize.rs` (the struct in
`src/v1_0.rs` predates it and lacks `success_criteria`; the serializer,
its tests and `tests/output.rs` construct this shape, with `outputs` a
`BTreeMap`, modelled as a key-sorted list). -/
structure SStep where
  step_id : String
  operation_id : Option String
  operation_path : Option String
  workflow_id : Option String
  description : Option String
  parameters : List (EitherV ParameterObject ReusableObject)
  request_body : Option SerRequestBody
  success_criteria : List Criterion
  on_success : List (EitherV SuccessObject ReusableObject)
  on_failure : List (EitherV FailureObject ReusableObject)
  outputs : StrMap
  extensions : ExtMap
deriving Repr

/-- The `if let Some(value) = &self.field { map.serialize_entry(k, value) }`
pattern: one entry when the optional field is present, none otherwise. -/
def optEntry {α : Type} (k : String) (g : α → SNode) : Option α → List (String × SNode)
  | some v => [(k, g v)]
  | none => []

/-- The `if !self.field.is_empty() { map.serialize_entry(k, &self.field) }`
pattern: one entry unless the list/mapping field is empty. -/
def listEntry (k : String) (empty : Bool) (x : SNode) : List (String × SNode) :=
  if empty then [] else [(k, x)]

/-- `serialize.rs`: `impl Serialize for Step` — emits, in the source's
hardcoded order: `description`, `onFailure`, `onSuccess`, `operationId`,
`operationPath`, `outputs`, `parameters`, `requestBody`, `stepId`,
`successCriteria`, `workflowId` (absent optionals and empty
lists/mappings omitted), then the extension entries sorted ascending by
their stored key, appended as-is. -/
def serialize_step (s : SStep) : SNode :=
  .map (optEntry "description" SNode.str s.description ++
    listEntry "onFailure" s.on_failure.isEmpty
      (SNode.seq (s.on_failure.map
        (serialize_either serialize_failure_object serialize_reusable_object))) ++
    listEntry "onSuccess" s.on_success.isEmpty
      (SNode.seq (s.on_success.map
        (serialize_either serialize_success_object serialize_reusable_object))) ++
    optEntry "operationId" SNode.str s.operation_id ++
    optEntry "operationPath" SNode.str s.operation_path ++
    listEntry "outputs" s.outputs.isEmpty
      (SNode.map (s.outputs.map (fun p => (p.1, SNode.str p.2)))) ++
    listEntry "parameters" s.parameters.isEmpty
      (SNode.seq (s.parameters.map
        (serialize_either serialize_parameter_object serialize_reusable_object))) ++
    optEntry "requestBody" serialize_request_body s.request_body ++
    [("stepId", SNode.str s.step_id)] ++
    listEntry "successCriteria" s.success_criteria.isEmpty
      (SNode.seq (s.success_criteria.map serialize_criterion)) ++
    optEntry "workflowId" SNode.str s.workflow_id ++
    (sortByKey s.extensions).map (fun q => (q.1, serialize_any q.2)))

/-- `serialize.rs`: `impl Serialize for Workflow` — the body is
`todo!()`, which panics unconditionally; modelled as `none` (and the
`serialise.rs` copies of `Workflow`, `Step`, `Components` and `Criterion`
are the same `todo!()` stub). -/
def serialize_workflow : Workflow → Option SNode :=
  fun _ => none

mutual

/-- Modelled from the spec: the external YAML writer (and a re-parse of
its output) "must preserve key order and value kind faithfully", so a
document tree maps to the evident YAML tree; YAML has a single signed
integer kind, so both emitted integer kinds re-parse as `Yaml::Integer`,
and a float re-parses as a `Yaml::Real` carrying its text. -/
def snodeToYaml : SNode → YVal
  | .unit => .null
  | .bool b => .boolean b
  | .i64 i => .integer i
  | .u64 u => .integer (u : Int)
  | .f64 f => .real f.text
  | .str s => .string s
  | .seq xs => .array (snodeToYamlList xs)
  | .map es => .hash (snodeToYamlEntries es)
  termination_by structural v => v

/-- Elementwise `snodeToYaml`. -/
def snodeToYamlList : List SNode → List YVal
  | [] => []
  | v :: rest => snodeToYaml v :: snodeToYamlList rest
  termination_by structural l => l

/-- Entrywise `snodeToYaml` (keys become YAML string scalars). -/
def snodeToYamlEntries : List (String × SNode) → List (YVal × YVal)
  | [] => []
  | (k, v) :: rest => (.string k, snodeToYaml v) :: snodeToYamlEntries rest
  termination_by structural l => l

end

mutual

/-- Modelled from the spec: the external JSON writer (and a re-parse of
its output) "must preserve key order and value kind faithfully", so a
document tree maps to the evident JSON tree (`serialize_i64` re-parses
as `PosInt` when non-negative and `NegInt` otherwise, exactly
`From<i64> for Number`). -/
def snodeToJson : SNode → JVal
  | .unit => .null
  | .bool b => .bool b
  | .i64 i => .num (JNum.ofI64 i)
  | .u64 u => .num (.pos u)
  | .f64 f => .num (.float f)
  | .str s => .str s
  | .seq xs => .arr (snodeToJsonList xs)
  | .map es => .obj (snodeToJsonEntries es)
  termination_by structural v => v

/-- Elementwise `snodeToJson`. -/
def snodeToJsonList : List SNode → List JVal
  | [] => []
  | v :: rest => snodeToJson v :: snodeToJsonList rest
  termination_by structural l => l

/-- Entrywise `snodeToJson`. -/
def snodeToJsonEntries : List (String × SNode) → List (String × JVal)
  | [] => []
  | (k, v) :: rest => (k, snodeToJson v) :: snodeToJsonEntries rest
  termination_by structural l => l

end

/-- C6: Numeric fidelity of Dynamic Value decoding.  A JSON number on
which `as_u64` succeeds (a `PosInt`) decodes to `UInteger`; otherwise one
on which `as_i64` succeeds (a `NegInt`) decodes to `Integer`; otherwise
(a `Float`) it decodes to `Float`.  Concretely JSON `2` gives
`UInteger 2`, `-100` gives `Integer (-100)` and `1.234` gives
`Float 1.234`.  A YAML integer always decodes to `Integer`
(SignedInteger), never to `UInteger`. -/
theorem C6_numeric_fidelity :
    (∀ u : Nat, (JNum.pos u).asU64 = some u ∧
      AnyValue.tryFromJson (.num (.pos u)) = .ok (.uinteger u))
  ∧ (∀ i : Int, (JNum.neg i).asU64 = none ∧ (JNum.neg i).asI64 = some i ∧
      AnyValue.tryFromJson (.num (.neg i)) = .ok (.integer i))
  ∧ (∀ f : F64, (JNum.float f).asU64 = none ∧ (JNum.float f).asI64 = none ∧
      AnyValue.tryFromJson (.num (.float f)) = .ok (.float f))
  ∧ AnyValue.tryFromJson (.num (.pos 2)) = .ok (.uinteger 2)
  ∧ AnyValue.tryFromJson (.num (.neg (-100))) = .ok (.integer (-100))
  ∧ AnyValue.tryFromJson (.num (.float ⟨"1.234"⟩)) = .ok (.float ⟨"1.234"⟩)
  ∧ (∀ i : Int, AnyValue.tryFromYaml (.integer i) = .ok (.integer i))
  ∧ (∀ (i : Int) (u : Nat), AnyValue.tryFromYaml (.integer i) ≠ .ok (.uinteger u)) := by
  refine ⟨fun u => ⟨rfl, rfl⟩, fun i => ⟨rfl, rfl, rfl⟩, fun f => ⟨rfl, rfl, rfl⟩,
    rfl, rfl, rfl, fun i => rfl, ?_⟩
  intro i u h
  simp [AnyValue.tryFromYaml] at h

/-- C6 witness: the YAML integer `3` decodes to `Integer 3` and in
particular not to `UInteger 3`. -/
theorem C6_numeric_fidelity_witness :
    AnyValue.tryFromYaml (.integer 3) ≠ .ok (.uinteger 3) :=
  C6_numeric_fidelity.2.2.2.2.2.2.2 3 3

/-- C10: Optional string-typed fields coerce scalar non-strings instead
of rejecting them.  In both lookup helpers an integer, boolean, or real
under the key yields `some` of its textual rendering (the YAML real's
stored text, `to_string` for the rest), while arrays, objects and null
yield `none`; and the `Info` loader therefore accepts an integer
`summary`, producing `some` of its decimal rendering with no error. -/
theorem C10_optional_string_coercion :
    (∀ (h : YHash) (k : String) (i : Int), h.get (.string k) = some (.integer i) →
        yaml_hash_lookup_string h k = some (toString i))
  ∧ (∀ (h : YHash) (k : String) (b : Bool), h.get (.string k) = some (.boolean b) →
        yaml_hash_lookup_string h k = some (toString b))
  ∧ (∀ (h : YHash) (k s : String), h.get (.string k) = some (.real s) →
        yaml_hash_lookup_string h k = some s)
  ∧ (∀ (h : YHash) (k : String) (xs : List YVal), h.get (.string k) = some (.array xs) →
        yaml_hash_lookup_string h k = none)
  ∧ (∀ (h : YHash) (k : String) (entries : List (YVal × YVal)),
        h.get (.string k) = some (.hash entries) → yaml_hash_lookup_string h k = none)
  ∧ (∀ (h : YHash) (k : String), h.get (.string k) = some .null →
        yaml_hash_lookup_string h k = none)
  ∧ (∀ (m : List (String × JVal)) (k : String) (n : JNum), jsonMapGet m k = some (.num n) →
        json_object_lookup_string m k = some n.render)
  ∧ (∀ (m : List (String × JVal)) (k : String) (b : Bool), jsonMapGet m k = some (.bool b) →
        json_object_lookup_string m k = some (toString b))
  ∧ (∀ (m : List (String × JVal)) (k : String) (xs : List JVal),
        jsonMapGet m k = some (.arr xs) → json_object_lookup_string m k = none)
  ∧ (∀ (m : List (String × JVal)) (k : String) (o : List (String × JVal)),
        jsonMapGet m k = some (.obj o) → json_object_lookup_string m k = none)
  ∧ (∀ (m : List (String × JVal)) (k : String), jsonMapGet m k = some .null →
        json_object_lookup_string m k = none)
  ∧ (∀ (outer ih : YHash) (t ver : String) (i : Int) (ext : ExtMap),
        yaml_hash_lookup outer "info" YVal.asHash = some ih →
        yaml_hash_require_string ih "title" = .ok t →
        yaml_hash_require_string ih "version" = .ok ver →
        ih.get (.string "summary") = some (.integer i) →
        yaml_extract_extensions ih = .ok ext →
        Info.tryFromYamlHash outer = .ok ⟨t, some (toString i),
          yaml_hash_lookup_string ih "description", ver, ext⟩) := by
  refine ⟨?_, ?_, ?_, ?_, ?_, ?_, ?_, ?_, ?_, ?_, ?_, ?_⟩
  · intro h k i hg; simp [yaml_hash_lookup_string, hg]
  · intro h k b hg; simp [yaml_hash_lookup_string, hg]
  · intro h k s hg; simp [yaml_hash_lookup_string, hg]
  · intro h k xs hg; simp [yaml_hash_lookup_string, hg]
  · intro h k entries hg; simp [yaml_hash_lookup_string, hg]
  · intro h k hg; simp [yaml_hash_lookup_string, hg]
  · intro m k n hg; simp [json_object_lookup_string, hg]
  · intro m k b hg; simp [json_object_lookup_string, hg]
  · intro m k xs hg; simp [json_object_lookup_string, hg]
  · intro m k o hg; simp [json_object_lookup_string, hg]
  · intro m k hg; simp [json_object_lookup_string, hg]
  · intro outer ih t ver i ext h1 h2 h3 h4 h5
    have hs : yaml_hash_lookup_string ih "summary" = some (toString i) := by
      simp [yaml_hash_lookup_string, h4]
    simp [Info.tryFromYamlHash, h1, h2, h3, h5, hs]
    rfl

/-- C10 witness: an Info hash whose `summary` is the integer `42` (and
whose `description` is the boolean `true`) loads successfully with
`summary = some "42"`. -/
theorem C10_optional_string_coercion_witness :
    Info.tryFromYamlHash
      [(.string "info", .hash
        [(.string "title", .string "t"),
         (.string "version", .string "1.0.0"),
         (.string "summary", .integer 42),
         (.string "description", .boolean true)])] =
    .ok { title := "t", summary := some "42", description := some "true",
          version := "1.0.0", extensions := [] } :=
  C10_optional_string_coercion.2.2.2.2.2.2.2.2.2.2.2
    [(.string "info", .hash
        [(.string "title", .string "t"),
         (.string "version", .string "1.0.0"),
         (.string "summary", .integer 42),
         (.string "description", .boolean true)])]
    [(.string "title", .string "t"),
     (.string "version", .string "1.0.0"),
     (.string "summary", .integer 42),
     (.string "description", .boolean true)]
    "t" "1.0.0" 42 [] rfl rfl rfl rfl rfl

/-- C5: Two-shape (literal-vs-expression) disambiguation of a
parameter's `value` field, in both formats: a string scalar is the
expression branch verbatim exactly when it starts with `$` and the
literal String branch otherwise (so no other prefix or position is
special-cased), and every non-string value is the literal branch through
the recursive Dynamic Value conversion. -/
theorem C5_two_shape_disambiguation :
    (∀ (h : YHash) (key s : String), h.get (.string key) = some (.string s) →
        yaml_load_parameter_value h key =
          .ok (if strStartsWith s "$" then .right s else .left (.string s)))
  ∧ (∀ (h : YHash) (key : String) (v : YVal) (a : AnyValue),
        h.get (.string key) = some v → v.asStr = none →
        AnyValue.tryFromYaml v = .ok a →
        yaml_load_parameter_value h key = .ok (.left a))
  ∧ (∀ (m : List (String × JVal)) (key s : String), jsonMapGet m key = some (.str s) →
        json_load_parameter_value m key =
          .ok (if strStartsWith s "$" then .right s else .left (.string s)))
  ∧ (∀ (m : List (String × JVal)) (key : String) (v : JVal) (a : AnyValue),
        jsonMapGet m key = some v → v.asStr = none →
        AnyValue.tryFromJson v = .ok a →
        json_load_parameter_value m key = .ok (.left a)) := by
  refine ⟨?_, ?_, ?_, ?_⟩
  · intro h key s hg
    cases hb : strStartsWith s "$" <;>
      simp [yaml_load_parameter_value, yaml_hash_lookup, hg, YVal.asStr, hb]
  · intro h key v a hg hstr hconv
    simp [yaml_load_parameter_value, yaml_hash_lookup, hg, hstr, hconv, Except.toOption]
  · intro m key s hg
    cases hb : strStartsWith s "$" <;>
      simp [json_load_parameter_value, hg, JVal.asStr, hb]
  · intro m key v a hg hstr hconv
    simp [json_load_parameter_value, hg, hstr, hconv, Except.map]

/-- C5 witness: `"$inputs.username"` decodes to the expression branch,
`"available"` to the literal String branch, the YAML integer `10` to the
literal `Integer 10`, and the JSON number `10` to the literal
`UInteger 10`. -/
theorem C5_two_shape_disambiguation_witness :
    yaml_load_parameter_value [(.string "value", .string "$inputs.username")] "value" =
      .ok (.right "$inputs.username")
  ∧ yaml_load_parameter_value [(.string "value", .string "available")] "value" =
      .ok (.left (.string "available"))
  ∧ yaml_load_parameter_value [(.string "value", .integer 10)] "value" =
      .ok (.left (.integer 10))
  ∧ json_load_parameter_value [("value", .num (.pos 10))] "value" =
      .ok (.left (.uinteger 10)) :=
  ⟨(C5_two_shape_disambiguation.1 [(.string "value", .string "$inputs.username")]
      "value" "$inputs.username" rfl).trans rfl,
   (C5_two_shape_disambiguation.1 [(.string "value", .string "available")]
      "value" "available" rfl).trans rfl,
   C5_two_shape_disambiguation.2.1 [(.string "value", .integer 10)]
      "value" (.integer 10) (.integer 10) rfl rfl rfl,
   C5_two_shape_disambiguation.2.2.2 [("value", .num (.pos 10))]
      "value" (.num (.pos 10)) (.uinteger 10) rfl rfl rfl⟩

/-- C9: Request Body equality is content-based, not tag-based: two
bodies compare equal exactly when their content-types agree, their
extension mappings agree, and their payloads agree by byte rendering
(both absent, or both present with identical rendered bytes); a raw
string payload equals a structured payload precisely when the string
matches the structured node's compact rendering (shown both generally
and on a concrete cross-variant pair), and exactly one absent payload
makes the bodies unequal. -/
theorem C9_request_body_content_equality :
    (∀ a b : RequestBody,
        RequestBody.beq a b = true ↔
          (a.content_type = b.content_type ∧ a.extensions = b.extensions ∧
            ((a.payload = none ∧ b.payload = none) ∨
             (∃ p q, a.payload = some p ∧ b.payload = some q ∧ p.asBytes = q.asBytes))))
  ∧ (∀ (ct : Option String) (ext : ExtMap) (s : String) (j : JVal),
        RequestBody.beq ⟨ct, some (.stringPayload s), ext⟩ ⟨ct, some (.jsonPayload j), ext⟩
          = (s == j.render))
  ∧ (∀ (ct : Option String) (ext : ExtMap) (p : PayloadV),
        RequestBody.beq ⟨ct, some p, ext⟩ ⟨ct, none, ext⟩ = false)
  ∧ (∀ (ct : Option String) (ext : ExtMap) (p : PayloadV),
        RequestBody.beq ⟨ct, none, ext⟩ ⟨ct, some p, ext⟩ = false)
  ∧ RequestBody.beq
      ⟨none, some (.stringPayload "\x7b\"a\":1\x7d"), []⟩
      ⟨none, some (.jsonPayload (.obj [("a", .num (.pos 1))])), []⟩ = true := by
  refine ⟨?_, ?_, ?_, ?_, rfl⟩
  · intro a b
    rcases a with ⟨act, ap, aext⟩
    rcases b with ⟨bct, bp, bext⟩
    cases ap <;> cases bp <;>
      simp [RequestBody.beq, beq_iff_eq, and_assoc]
  · intro ct ext s j
    simp [RequestBody.beq, PayloadV.asBytes]
  · intro ct ext p
    cases p <;> simp [RequestBody.beq]
  · intro ct ext p
    cases p <;> simp [RequestBody.beq]

/-- C7: Reusable-reference discrimination in the `parameters`,
`successActions` and `failureActions` list loaders: a hash entry with a
literal `reference` key goes through the Reusable Object decoder (its
result, or its error, in place), a hash entry without it goes through
the primary decoder, and a non-hash entry is silently omitted; a hash
holding only `reference` decodes as a Reusable Reference. -/
theorem C7_reusable_reference_discrimination :
    (∀ (h : YHash) (rest : List YVal) (r : ReusableObject),
        h.containsKey (.string "reference") = true →
        ReusableObject.tryFromYamlHash h = .ok r →
        yaml_load_parameter_items (.hash h :: rest) =
          (yaml_load_parameter_items rest).map (List.cons (.right r)))
  ∧ (∀ (h : YHash) (rest : List YVal) (e : LoadErr),
        h.containsKey (.string "reference") = true →
        ReusableObject.tryFromYamlHash h = .error e →
        yaml_load_parameter_items (.hash h :: rest) = .error e)
  ∧ (∀ (h : YHash) (rest : List YVal) (p : ParameterObject),
        h.containsKey (.string "reference") = false →
        ParameterObject.tryFromYamlHash h = .ok p →
        yaml_load_parameter_items (.hash h :: rest) =
          (yaml_load_parameter_items rest).map (List.cons (.left p)))
  ∧ (∀ (h : YHash) (rest : List YVal) (e : LoadErr),
        h.containsKey (.string "reference") = false →
        ParameterObject.tryFromYamlHash h = .error e →
        yaml_load_parameter_items (.hash h :: rest) = .error e)
  ∧ (∀ (v : YVal) (rest : List YVal), v.asHash = none →
        yaml_load_parameter_items (v :: rest) = yaml_load_parameter_items rest)
  ∧ (∀ (h : YHash) (rest : List YVal) (r : ReusableObject),
        h.containsKey (.string "reference") = true →
        ReusableObject.tryFromYamlHash h = .ok r →
        yaml_load_success_action_items (.hash h :: rest) =
          (yaml_load_success_action_items rest).map (List.cons (.right r)))
  ∧ (∀ (h : YHash) (rest : List YVal) (s : SuccessObject),
        h.containsKey (.string "reference") = false →
        SuccessObject.tryFromYamlHash h = .ok s →
        yaml_load_success_action_items (.hash h :: rest) =
          (yaml_load_success_action_items rest).map (List.cons (.left s)))
  ∧ (∀ (v : YVal) (rest : List YVal), v.asHash = none →
        yaml_load_success_action_items (v :: rest) = yaml_load_success_action_items rest)
  ∧ (∀ (h : YHash) (rest : List YVal) (r : ReusableObject),
        h.containsKey (.string "reference") = true →
        ReusableObject.tryFromYamlHash h = .ok r →
        yaml_load_failure_action_items (.hash h :: rest) =
          (yaml_load_failure_action_items rest).map (List.cons (.right r)))
  ∧ (∀ (h : YHash) (rest : List YVal) (f : FailureObject),
        h.containsKey (.string "reference") = false →
        FailureObject.tryFromYamlHash h = .ok f →
        yaml_load_failure_action_items (.hash h :: rest) =
          (yaml_load_failure_action_items rest).map (List.cons (.left f)))
  ∧ (∀ (v : YVal) (rest : List YVal), v.asHash = none →
        yaml_load_failure_action_items (v :: rest) = yaml_load_failure_action_items rest)
  ∧ yaml_load_parameter_items
      [.hash [(.string "reference", .string "$components.parameters.auth")]] =
      .ok [.right { reference := "$components.parameters.auth", value := none }] := by
  refine ⟨?_, ?_, ?_, ?_, ?_, ?_, ?_, ?_, ?_, ?_, ?_, rfl⟩
  · intro h rest r hc hr
    cases hrec : yaml_load_parameter_items rest <;>
      simp [yaml_load_parameter_items, YVal.asHash, hc, hr, hrec, Except.map]
  · intro h rest e hc hr
    simp [yaml_load_parameter_items, YVal.asHash, hc, hr]
  · intro h rest p hc hp
    cases hrec : yaml_load_parameter_items rest <;>
      simp [yaml_load_parameter_items, YVal.asHash, hc, hp, hrec, Except.map]
  · intro h rest e hc hp
    simp [yaml_load_parameter_items, YVal.asHash, hc, hp]
  · intro v rest hv
    cases v <;> simp_all [yaml_load_parameter_items, YVal.asHash]
  · intro h rest r hc hr
    cases hrec : yaml_load_success_action_items rest <;>
      simp [yaml_load_success_action_items, YVal.asHash, hc, hr, hrec, Except.map]
  · intro h rest s hc hs
    cases hrec : yaml_load_success_action_items rest <;>
      simp [yaml_load_success_action_items, YVal.asHash, hc, hs, hrec, Except.map]
  · intro v rest hv
    cases v <;> simp_all [yaml_load_success_action_items, YVal.asHash]
  · intro h rest r hc hr
    cases hrec : yaml_load_failure_action_items rest <;>
      simp [yaml_load_failure_action_items, YVal.asHash, hc, hr, hrec, Except.map]
  · intro h rest f hc hf
    cases hrec : yaml_load_failure_action_items rest <;>
      simp [yaml_load_failure_action_items, YVal.asHash, hc, hf, hrec, Except.map]
  · intro v rest hv
    cases v <;> simp_all [yaml_load_failure_action_items, YVal.asHash]

/-- C7 witness: a reference-keyed entry decodes as the Reusable
Reference branch, a `{name, value}` entry as the primary Parameter
branch, and a non-hash entry is dropped. -/
theorem C7_reusable_reference_discrimination_witness :
    yaml_load_parameter_items
      [.hash [(.string "reference", .string "$components.parameters.auth")],
       .hash [(.string "name", .string "x"), (.string "value", .integer 1)],
       .integer 5] =
    .ok [.right { reference := "$components.parameters.auth", value := none },
         .left { name := "x", rIn := none, value := .left (.integer 1), extensions := [] }] := by
  have h1 := C7_reusable_reference_discrimination.1
    [(.string "reference", .string "$components.parameters.auth")]
    [.hash [(.string "name", .string "x"), (.string "value", .integer 1)], .integer 5]
    { reference := "$components.parameters.auth", value := none } rfl rfl
  have h2 := C7_reusable_reference_discrimination.2.2.1
    [(.string "name", .string "x"), (.string "value", .integer 1)]
    [.integer 5]
    { name := "x", rIn := none, value := .left (.integer 1), extensions := [] } rfl rfl
  have h3 := C7_reusable_reference_discrimination.2.2.2.2.1
    (.integer 5) [] rfl
  rw [h1, h2, h3]
  rfl

/-- C4: Required-field and non-empty-list rejection.  A root hash
without an `arazzo` entry fails with the version-required error; with
the earlier fields loadable, an absent `workflows` entry fails with the
workflows-required error and an empty one with the workflows-empty error
(two messages, both citing the non-empty-list rule of 4.6.1.1); the same
pattern holds for `sourceDescriptions`, and for a Workflow's `steps`
(where absent and empty share one error); while `parameters`,
`successActions`, `failureActions` and `dependsOn` all default to the
empty list when absent. -/
theorem C4_required_and_nonempty_lists :
    (∀ h : YHash, h.get (.string "arazzo") = none →
        ArazzoDescription.tryFromYaml (.hash h) = .error .arazzoRequired)
  ∧ (∀ (h : YHash) (v : String) (info : Info) (sds : List SourceDescription),
        yaml_hash_require_string h "arazzo" = .ok v →
        Info.tryFromYamlHash h = .ok info →
        yaml_load_source_descriptions h = .ok sds →
        yaml_hash_lookup h "workflows" YVal.asVec = none →
        ArazzoDescription.tryFromYaml (.hash h) = .error .workflowsRequired)
  ∧ (∀ (h : YHash) (v : String) (info : Info) (sds : List SourceDescription),
        yaml_hash_require_string h "arazzo" = .ok v →
        Info.tryFromYamlHash h = .ok info →
        yaml_load_source_descriptions h = .ok sds →
        yaml_hash_lookup h "workflows" YVal.asVec = some [] →
        ArazzoDescription.tryFromYaml (.hash h) = .error .workflowsEmpty)
  ∧ (∀ (h : YHash) (v : String) (info : Info),
        yaml_hash_require_string h "arazzo" = .ok v →
        Info.tryFromYamlHash h = .ok info →
        yaml_hash_lookup h "sourceDescriptions" YVal.asVec = none →
        ArazzoDescription.tryFromYaml (.hash h) = .error .sourceDescriptionsRequired)
  ∧ (∀ (h : YHash) (v : String) (info : Info),
        yaml_hash_require_string h "arazzo" = .ok v →
        Info.tryFromYamlHash h = .ok info →
        yaml_hash_lookup h "sourceDescriptions" YVal.asVec = some [] →
        ArazzoDescription.tryFromYaml (.hash h) = .error .sourceDescriptionsEmpty)
  ∧ (∀ h : YHash, yaml_hash_lookup h "steps" YVal.asVec = none →
        yaml_load_steps h = .error .stepsRequired)
  ∧ (∀ h : YHash, yaml_hash_lookup h "steps" YVal.asVec = some [] →
        yaml_load_steps h = .error .stepsRequired)
  ∧ (∀ (h : YHash) (wid : String) (j : JVal),
        yaml_hash_require_string h "workflowId" = .ok wid →
        yaml_hash_entry_to_json h "inputs" = .ok j →
        yaml_hash_lookup h "steps" YVal.asVec = none →
        Workflow.tryFromYaml (.hash h) = .error .stepsRequired)
  ∧ (∀ h : YHash, yaml_hash_lookup h "parameters" YVal.asVec = none →
        yaml_load_parameters h = .ok [])
  ∧ (∀ h : YHash, yaml_hash_lookup h "successActions" YVal.asVec = none →
        yaml_load_success_actions h = .ok [])
  ∧ (∀ h : YHash, yaml_hash_lookup h "failureActions" YVal.asVec = none →
        yaml_load_failure_actions h = .ok [])
  ∧ (∀ h : YHash, h.get (.string "dependsOn") = none →
        (yaml_hash_lookup_string_list h "dependsOn").getD [] = []) := by
  refine ⟨?_, ?_, ?_, ?_, ?_, ?_, ?_, ?_, ?_, ?_, ?_, ?_⟩
  · intro h hg
    have hreq : yaml_hash_require_string h "arazzo" = .error (.keyNotFound "arazzo") := by
      simp [yaml_hash_require_string, hg]
    simp [ArazzoDescription.tryFromYaml, hreq]
  · intro h v info sds h1 h2 h3 h4
    have hw : yaml_load_workflows h = .error .workflowsRequired := by
      simp [yaml_load_workflows, h4]
    simp [ArazzoDescription.tryFromYaml, h1, h2, h3, hw]
    rfl
  · intro h v info sds h1 h2 h3 h4
    have hw : yaml_load_workflows h = .error .workflowsEmpty := by
      simp [yaml_load_workflows, h4, List.isEmpty]
    simp [ArazzoDescription.tryFromYaml, h1, h2, h3, hw]
    rfl
  · intro h v info h1 h2 h3
    have hs : yaml_load_source_descriptions h = .error .sourceDescriptionsRequired := by
      simp [yaml_load_source_descriptions, h3]
    simp [ArazzoDescription.tryFromYaml, h1, h2, hs]
    rfl
  · intro h v info h1 h2 h3
    have hs : yaml_load_source_descriptions h = .error .sourceDescriptionsEmpty := by
      simp [yaml_load_source_descriptions, h3, List.isEmpty]
    simp [ArazzoDescription.tryFromYaml, h1, h2, hs]
    rfl
  · intro h hg; simp [yaml_load_steps, hg]
  · intro h hg; simp [yaml_load_steps, hg, List.isEmpty]
  · intro h wid j h1 h2 h3
    have hs : yaml_load_steps h = .error .stepsRequired := by
      simp [yaml_load_steps, h3]
    simp [Workflow.tryFromYaml, h1, h2, hs]
    rfl
  · intro h hg; simp [yaml_load_parameters, hg]
  · intro h hg; simp [yaml_load_success_actions, hg]
  · intro h hg; simp [yaml_load_failure_actions, hg]
  · intro h hg; simp [yaml_hash_lookup_string_list, hg]

/-- C4 witness: on concrete documents — an empty root hash is rejected
for the missing version; with valid`arazzo`/`info`/`sourceDescriptions`,
absent and empty `workflows` are rejected with the two list errors;
absent and empty `sourceDescriptions` likewise; absent and empty `steps`
are rejected (also through the Workflow loader); and the optional list
fields default to empty. -/
theorem C4_required_and_nonempty_lists_witness :
    ArazzoDescription.tryFromYaml (.hash []) = .error .arazzoRequired
  ∧ ArazzoDescription.tryFromYaml (.hash
      [(.string "arazzo", .string "1.0.1"),
       (.string "info", .hash [(.string "title", .string "t"), (.string "version", .string "1.0.0")]),
       (.string "sourceDescriptions", .array
         [.hash [(.string "name", .string "s"), (.string "url", .string "http://x")]])]) =
      .error .workflowsRequired
  ∧ ArazzoDescription.tryFromYaml (.hash
      [(.string "arazzo", .string "1.0.1"),
       (.string "info", .hash [(.string "title", .string "t"), (.string "version", .string "1.0.0")]),
       (.string "sourceDescriptions", .array
         [.hash [(.string "name", .string "s"), (.string "url", .string "http://x")]]),
       (.string "workflows", .array [])]) =
      .error .workflowsEmpty
  ∧ ArazzoDescription.tryFromYaml (.hash
      [(.string "arazzo", .string "1.0.1"),
       (.string "info", .hash [(.string "title", .string "t"), (.string "version", .string "1.0.0")])]) =
      .error .sourceDescriptionsRequired
  ∧ ArazzoDescription.tryFromYaml (.hash
      [(.string "arazzo", .string "1.0.1"),
       (.string "info", .hash [(.string "title", .string "t"), (.string "version", .string "1.0.0")]),
       (.string "sourceDescriptions", .array [])]) =
      .error .sourceDescriptionsEmpty
  ∧ yaml_load_steps [] = .error .stepsRequired
  ∧ yaml_load_steps [(.string "steps", .array [])] = .error .stepsRequired
  ∧ Workflow.tryFromYaml (.hash [(.string "workflowId", .string "w")]) = .error .stepsRequired
  ∧ yaml_load_parameters [] = .ok []
  ∧ yaml_load_success_actions [] = .ok []
  ∧ yaml_load_failure_actions [] = .ok []
  ∧ (yaml_hash_lookup_string_list [] "dependsOn").getD [] = [] :=
  ⟨C4_required_and_nonempty_lists.1 [] rfl,
   C4_required_and_nonempty_lists.2.1 _ "1.0.1"
     { title := "t", summary := none, description := none, version := "1.0.0", extensions := [] }
     [{ name := "s", url := "http://x", rType := none, extensions := [] }] rfl rfl rfl rfl,
   C4_required_and_nonempty_lists.2.2.1 _ "1.0.1"
     { title := "t", summary := none, description := none, version := "1.0.0", extensions := [] }
     [{ name := "s", url := "http://x", rType := none, extensions := [] }] rfl rfl rfl rfl,
   C4_required_and_nonempty_lists.2.2.2.1 _ "1.0.1"
     { title := "t", summary := none, description := none, version := "1.0.0", extensions := [] }
     rfl rfl rfl,
   C4_required_and_nonempty_lists.2.2.2.2.1 _ "1.0.1"
     { title := "t", summary := none, description := none, version := "1.0.0", extensions := [] }
     rfl rfl rfl,
   C4_required_and_nonempty_lists.2.2.2.2.2.1 [] rfl,
   C4_required_and_nonempty_lists.2.2.2.2.2.2.1 _ rfl,
   C4_required_and_nonempty_lists.2.2.2.2.2.2.2.1 _ "w" .null rfl rfl rfl,
   C4_required_and_nonempty_lists.2.2.2.2.2.2.2.2.1 [] rfl,
   C4_required_and_nonempty_lists.2.2.2.2.2.2.2.2.2.1 [] rfl,
   C4_required_and_nonempty_lists.2.2.2.2.2.2.2.2.2.2.1 [] rfl,
   C4_required_and_nonempty_lists.2.2.2.2.2.2.2.2.2.2.2 [] rfl⟩

/-- C3 counterexample: the YAML document `{name: username, value: 10}`
and its semantically equivalent JSON document load to parameter objects
that are not field-for-field equal — the YAML loader produces
`Integer 10`, the JSON loader `UInteger 10`. -/
theorem C3_cross_format_counterexample :
    ParameterObject.tryFromYamlHash
      [(.string "name", .string "username"), (.string "value", .integer 10)] =
      .ok { name := "username", rIn := none, value := .left (.integer 10), extensions := [] }
  ∧ ParameterObject.tryFromJson
      (.obj [("name", .str "username"), ("value", .num (.pos 10))]) =
      .ok { name := "username", rIn := none, value := .left (.uinteger 10), extensions := [] }
  ∧ ({ name := "username", rIn := none, value := .left (.integer 10), extensions := [] }
      : ParameterObject) ≠
      { name := "username", rIn := none, value := .left (.uinteger 10), extensions := [] } :=
  ⟨rfl, rfl, by decide⟩

/-- A scalar present in both source formats with the same meaning and a
format-independent decoding: a string, a boolean, or null (integers are
excluded — see the C3 counterexample). -/
inductive ScalarLit where
  /-- a string scalar -/
  | strLit (s : String)
  /-- a boolean scalar -/
  | boolLit (b : Bool)
  /-- a null scalar -/
  | nullLit

/-- The YAML rendering of a `ScalarLit`. -/
def ScalarLit.toYaml : ScalarLit → YVal
  | .strLit s => .string s
  | .boolLit b => .boolean b
  | .nullLit => .null

/-- The JSON rendering of a `ScalarLit`. -/
def ScalarLit.toJson : ScalarLit → JVal
  | .strLit s => .str s
  | .boolLit b => .bool b
  | .nullLit => .null

/-- C3 amended: cross-format equivalence holds for parameter documents
whose `value` scalar is a string, boolean or null — the YAML and JSON
loaders then produce identical models for corresponding documents (for
every name and location string). -/
theorem C3_cross_format_equivalence_amended :
    ∀ (n i : String) (v : ScalarLit),
      ParameterObject.tryFromYamlHash
        [(.string "name", .string n), (.string "in", .string i),
         (.string "value", v.toYaml)] =
      ParameterObject.tryFromJson
        (.obj [("name", .str n), ("in", .str i), ("value", v.toJson)]) := by
  intro n i v
  cases v with
  | strLit s =>
    have hy : yaml_load_parameter_value
        [(.string "name", .string n), (.string "in", .string i),
         (.string "value", .string s)] "value" =
        .ok (if strStartsWith s "$" then .right s else .left (.string s)) := by
      cases hb : strStartsWith s "$" <;>
        simp [yaml_load_parameter_value, yaml_hash_lookup,
          (show YHash.get [(.string "name", .string n), (.string "in", .string i),
            (.string "value", .string s)] (.string "value") = some (.string s) from rfl),
          YVal.asStr, hb]
    have hj : json_load_parameter_value
        [("name", .str n), ("in", .str i), ("value", .str s)] "value" =
        .ok (if strStartsWith s "$" then .right s else .left (.string s)) := by
      cases hb : strStartsWith s "$" <;>
        simp [json_load_parameter_value,
          (show jsonMapGet [("name", .str n), ("in", .str i), ("value", .str s)]
            "value" = some (.str s) from rfl),
          JVal.asStr, hb]
    have hyfull : ParameterObject.tryFromYamlHash
        [(.string "name", .string n), (.string "in", .string i),
         (.string "value", .string s)] =
        .ok ⟨n, some i, if strStartsWith s "$" then .right s else .left (.string s), []⟩ := by
      simp only [ParameterObject.tryFromYamlHash, hy]
      rfl
    have hjfull : ParameterObject.tryFromJson
        (.obj [("name", .str n), ("in", .str i), ("value", .str s)]) =
        .ok ⟨n, some i, if strStartsWith s "$" then .right s else .left (.string s), []⟩ := by
      simp only [ParameterObject.tryFromJson, JVal.asObject, hj]
      rfl
    exact hyfull.trans hjfull.symm
  | boolLit b => rfl
  | nullLit => rfl

theorem charListLt_asymm : ∀ {a b : List Char},
    charListLt a b = true → charListLt b a = false
  | [], [] => by simp [charListLt]
  | [], _ :: _ => by simp [charListLt]
  | _ :: _, [] => by simp [charListLt]
  | x :: xs, y :: ys => by
    simp only [charListLt]
    intro h
    by_cases h1 : x < y
    · simp [h1, lt_asymm h1]
    · by_cases h2 : y < x
      · simp [h1, h2] at h
      · simp only [h1, h2, if_false] at h ⊢
        exact charListLt_asymm h

theorem charListLt_trans : ∀ {a b c : List Char},
    charListLt a b = true → charListLt b c = true → charListLt a c = true
  | [], [], _ => by simp [charListLt]
  | [], _ :: _, [] => by intro _ h; simp [charListLt] at h
  | [], _ :: _, _ :: _ => by simp [charListLt]
  | _ :: _, [], _ => by simp [charListLt]
  | _ :: _, _ :: _, [] => by intro _ h; simp [charListLt] at h
  | x :: xs, y :: ys, z :: zs => by
    simp only [charListLt]
    intro hab hbc
    by_cases h1 : x < y
    · by_cases h2 : y < z
      · simp [lt_trans h1 h2]
      · by_cases h3 : z < y
        · simp [h2, h3] at hbc
        · have : y = z := le_antisymm (le_of_not_lt h3) (le_of_not_lt h2)
          subst this
          simp [h1]
    · by_cases h2 : y < x
      · simp [h1, h2] at hab
      · have hxy : x = y := le_antisymm (le_of_not_lt h2) (le_of_not_lt h1)
        subst hxy
        simp only [h1, h2, if_false] at hab
        by_cases h3 : x < z
        · simp [h3]
        · by_cases h4 : z < x
          · simp [h3, h4] at hbc
          · simp only [h3, h4, if_false] at hbc ⊢
            exact charListLt_trans hab hbc

theorem charListLt_conn : ∀ {a b : List Char},
    charListLt a b = false → charListLt b a = false → a = b
  | [], [] => by simp
  | [], _ :: _ => by simp [charListLt]
  | _ :: _, [] => by intro _ h; simp [charListLt] at h
  | x :: xs, y :: ys => by
    simp only [charListLt]
    intro hab hba
    by_cases h1 : x < y
    · simp [h1] at hab
    · by_cases h2 : y < x
      · simp [h1, h2] at hba
      · have hxy : x = y := le_antisymm (le_of_not_lt h2) (le_of_not_lt h1)
        subst hxy
        simp only [h1, h2, if_false] at hab hba
        rw [charListLt_conn hab hba]

theorem strLt_asymm {a b : String} (h : strLt a b = true) : strLt b a = false :=
  charListLt_asymm h

theorem strLt_trans {a b c : String} (h1 : strLt a b = true) (h2 : strLt b c = true) :
    strLt a c = true :=
  charListLt_trans h1 h2

theorem strLt_conn {a b : String} (h1 : strLt a b = false) (h2 : strLt b a = false) :
    a = b := by
  cases a; cases b
  exact congrArg String.mk (by simpa [String.toList] using charListLt_conn h1 h2)

theorem mem_insertByKey {α : Type} {p x : String × α} :
    ∀ {l : List (String × α)}, x ∈ insertByKey p l → x = p ∨ x ∈ l
  | [] => by simp [insertByKey]
  | q :: rest => by
    simp only [insertByKey]
    by_cases hc : strLt q.1 p.1 = true
    · rw [if_pos hc]
      simp only [List.mem_cons]
      rintro (rfl | hx)
      · exact Or.inr (Or.inl rfl)
      · rcases mem_insertByKey hx with rfl | hx'
        · exact Or.inl rfl
        · exact Or.inr (Or.inr hx')
    · rw [if_neg hc]
      simp only [List.mem_cons]
      tauto

theorem pairwise_insertByKey {α : Type} (p : String × α) :
    ∀ {l : List (String × α)},
      l.Pairwise (fun a b => strLt b.1 a.1 = false) →
      (insertByKey p l).Pairwise (fun a b => strLt b.1 a.1 = false)
  | [], _ => by simp [insertByKey]
  | q :: rest, h => by
    rw [List.pairwise_cons] at h
    obtain ⟨hq, hrest⟩ := h
    simp only [insertByKey]
    by_cases hc : strLt q.1 p.1 = true
    · rw [if_pos hc]
      rw [List.pairwise_cons]
      refine ⟨?_, pairwise_insertByKey p hrest⟩
      intro x hx
      rcases mem_insertByKey hx with rfl | hx'
      · exact strLt_asymm hc
      · exact hq x hx'
    · have hc' : strLt q.1 p.1 = false := by simpa using hc
      rw [if_neg hc]
      rw [List.pairwise_cons]
      refine ⟨?_, ?_⟩
      · intro x hx
        rcases List.mem_cons.mp hx with rfl | hx'
        · exact hc'
        · by_contra hxp
          have hxp' : strLt x.1 p.1 = true := by
            cases hv : strLt x.1 p.1
            · exact absurd hv hxp
            · rfl
          have hxq : strLt x.1 q.1 = false := hq x hx'
          cases hqx : strLt q.1 x.1 with
          | true => exact absurd (strLt_trans hqx hxp') (by simp [hc'])
          | false =>
            have : q.1 = x.1 := strLt_conn hqx hxq
            rw [← this] at hxp'
            simp [hxp'] at hc'
      · rw [List.pairwise_cons]
        exact ⟨hq, hrest⟩

theorem sortByKey_pairwise {α : Type} :
    ∀ l : List (String × α),
      (sortByKey l).Pairwise (fun a b => strLt b.1 a.1 = false)
  | [] => by simp [sortByKey]
  | p :: rest => by
    simp only [sortByKey]
    exact pairwise_insertByKey p (sortByKey_pairwise rest)

theorem optEntry_keys {α : Type} (k : String) (g : α → SNode) (o : Option α) :
    (optEntry k g o).map (fun p => p.1) = if o.isSome then [k] else [] := by
  cases o <;> rfl

theorem listEntry_keys (k : String) (c : Bool) (x : SNode) :
    (listEntry k c x).map (fun p => p.1) = if c then [] else [k] := by
  cases c <;> rfl

/-- The fixed-field keys of a serialized `Step`, in the serializer's
hardcoded emission order, with absent optionals and empty lists
omitted. -/
def stepFixedKeys (s : SStep) : List String :=
  (if s.description.isSome then ["description"] else []) ++
  (if s.on_failure.isEmpty then [] else ["onFailure"]) ++
  (if s.on_success.isEmpty then [] else ["onSuccess"]) ++
  (if s.operation_id.isSome then ["operationId"] else []) ++
  (if s.operation_path.isSome then ["operationPath"] else []) ++
  (if s.outputs.isEmpty then [] else ["outputs"]) ++
  (if s.parameters.isEmpty then [] else ["parameters"]) ++
  (if s.request_body.isSome then ["requestBody"] else []) ++
  ["stepId"] ++
  (if s.success_criteria.isEmpty then [] else ["successCriteria"]) ++
  (if s.workflow_id.isSome then ["workflowId"] else [])

/-- C8 counterexample: the extension fields `x-one: "1"` and `x-two: 2`
load to the mapping `{one ↦ String "1", two ↦ UInteger 2}` (prefix
stripped), but re-serializing a Step carrying that mapping emits the
entries under their stored names `one` and `two` — no `x-` prefix is
re-added, so no `x-one` key appears in the output. -/
theorem C8_extension_prefix_counterexample :
    json_extract_extensions [("x-one", .str "1"), ("x-two", .num (.pos 2))] =
      .ok [("one", .string "1"), ("two", .uinteger 2)]
  ∧ (serialize_step
      { step_id := "s", operation_id := none, operation_path := none,
        workflow_id := none, description := none, parameters := [],
        request_body := none, success_criteria := [], on_success := [],
        on_failure := [], outputs := [],
        extensions := [("one", .string "1"), ("two", .uinteger 2)] }).mapKeys =
      ["stepId", "one", "two"]
  ∧ "x-one" ∉ (serialize_step
      { step_id := "s", operation_id := none, operation_path := none,
        workflow_id := none, description := none, parameters := [],
        request_body := none, success_criteria := [], on_success := [],
        on_failure := [], outputs := [],
        extensions := [("one", .string "1"), ("two", .uinteger 2)] }).mapKeys :=
  ⟨rfl, rfl, by decide⟩

/-- C8 amended: the document `x-one: "1", x-two: 2` loads to the
extension mapping `{one ↦ String "1", two ↦ UInteger 2}` (the `x-`
prefix stripped, exact and case-sensitive), and re-serializing emits the
extension entries under their stored (stripped) names, placed after all
fixed fields and sorted ascending by extension name — so `one` appears
before `two`; the serializer does not re-add the `x-` prefix. -/
theorem C8_extension_emission_order :
    json_extract_extensions [("x-one", .str "1"), ("x-two", .num (.pos 2))] =
      .ok [("one", .string "1"), ("two", .uinteger 2)]
  ∧ (∀ st : SStep, (serialize_step st).mapKeys =
      stepFixedKeys st ++ (sortByKey st.extensions).map (fun p => p.1))
  ∧ (∀ ext : ExtMap,
      ((sortByKey ext).map (fun p => p.1)).Pairwise (fun a b => strLt b a = false))
  ∧ (serialize_step
      { step_id := "s", operation_id := none, operation_path := none,
        workflow_id := none, description := none, parameters := [],
        request_body := none, success_criteria := [], on_success := [],
        on_failure := [], outputs := [],
        extensions := [("one", .string "1"), ("two", .uinteger 2)] }).mapKeys =
      ["stepId"] ++ ["one", "two"] := by
  refine ⟨rfl, ?_, ?_, rfl⟩
  · intro st
    simp [serialize_step, SNode.mapKeys, stepFixedKeys, optEntry_keys, listEntry_keys,
      List.map_append, List.map_map, Function.comp]
  · intro ext
    have h := sortByKey_pairwise ext
    exact List.Pairwise.map (Prod.fst) (fun {a b} hab => hab) h

/-- C2: the serializer is not total — `Serialize for Workflow` is an
unimplemented `todo!()` stub, which panics (modelled as `none`), so
serializing any Workflow (and hence any full description) aborts instead
of succeeding; here shown on a minimal valid workflow. -/
theorem C2_workflow_serializer_panics :
    serialize_workflow
      { workflow_id := "w", summary := none, description := none, inputs := .null,
        depends_on := [],
        steps := [{ step_id := "s1", operation_id := none, operation_path := none,
                    workflow_id := none, description := none, parameters := [],
                    request_body := none, on_success := [], on_failure := [],
                    outputs := [], extensions := [] }],
        success_actions := [], failure_actions := [], outputs := [],
        parameters := [], extensions := [] } = none :=
  rfl

/-- C1: the round trip fails.  A parameter object carrying the extension
mapping `{one ↦ String "1"}` (as produced by loading `x-one: "1"`)
serializes to a tree whose extension entry is emitted under the bare key
`one`; loading that tree back — through the faithful writer/parser in
either format — yields a model with an empty extension mapping, not the
original model.  Root-level round trips cannot even start, since the
Workflow serializer is an unimplemented `todo!()` (modelled as
`none`). -/
theorem C1_roundtrip_failure :
    serialize_parameter_object
      { name := "username", rIn := none, value := .left (.string "available"),
        extensions := [("one", .string "1")] } =
      .map [("name", .str "username"), ("value", .str "available"), ("one", .str "1")]
  ∧ snodeToYaml
      (.map [("name", .str "username"), ("value", .str "available"), ("one", .str "1")]) =
      .hash [(.string "name", .string "username"), (.string "value", .string "available"),
             (.string "one", .string "1")]
  ∧ ParameterObject.tryFromYamlHash
      [(.string "name", .string "username"), (.string "value", .string "available"),
       (.string "one", .string "1")] =
      .ok { name := "username", rIn := none, value := .left (.string "available"),
            extensions := [] }
  ∧ snodeToJson
      (.map [("name", .str "username"), ("value", .str "available"), ("one", .str "1")]) =
      .obj [("name", .str "username"), ("value", .str "available"), ("one", .str "1")]
  ∧ ParameterObject.tryFromJson
      (.obj [("name", .str "username"), ("value", .str "available"), ("one", .str "1")]) =
      .ok { name := "username", rIn := none, value := .left (.string "available"),
            extensions := [] }
  ∧ ({ name := "username", rIn := none, value := .left (.string "available"),
       extensions := [("one", .string "1")] } : ParameterObject) ≠
      { name := "username", rIn := none, value := .left (.string "available"),
        extensions := [] }
  ∧ serialize_workflow
      { workflow_id := "w", summary := none, description := none, inputs := .null,
        depends_on := [],
        steps := [{ step_id := "s1", operation_id := none, operation_path := none,
                    workflow_id := none, description := none, parameters := [],
                    request_body := none, on_success := [], on_failure := [],
                    outputs := [], extensions := [] }],
        success_actions := [], failure_actions := [], outputs := [],
        parameters := [], extensions := [] } = none :=
  ⟨rfl, rfl, rfl, rfl, rfl, by decide, rfl⟩
